import Mathlib

/-!
Verification of the extraction & normalization core of `sites/parsers.py`
(publisher-specific list / detail extractors, normalization, capability
registry) against its specification.

The Python module is shallowly embedded below:
* parsed HTML documents become the inductive tree `Node`;
* BeautifulSoup queries (`find`, `find_all`, `select`, `get_text`,
  `find_next_sibling`, parent walks) become pure traversals of that tree;
* fallible Python operations (`float(...)`, `json.loads`, `d[key]`)
  return `Except`, and `try/except` blocks become `match`es on those
  results;
* the helpers imported from modules outside this file's source
  (`extract_int_price`, `extract_currency`, `default_normalize`) are
  modelled from the spec and clearly marked as such.
-/

/-! ## String utilities (List Char based, so that everything reduces) -/

/-- Characters counted as whitespace by the embedding (ASCII, as used by
`str.strip`, `str.split` and `\s` on the documents considered here). -/
def isWS (c : Char) : Bool :=
  c = ' ' || c = '\t' || c = '\n' || c = '\r'

/-- Python `str.strip()` on the character list. -/
def trimChars (l : List Char) : List Char :=
  ((l.dropWhile isWS).reverse.dropWhile isWS).reverse

/-- Python `str.strip()`. -/
def pyStrip (s : String) : String := String.mk (trimChars s.data)

/-- Does `pat` occur at the head of `l`? (literal match) -/
def startsWithL : List Char → List Char → Bool
  | _, [] => true
  | [], _ :: _ => false
  | c :: cs, p :: ps => c = p && startsWithL cs ps

/-- Python `str.startswith`. -/
def pyStartsWith (s pat : String) : Bool := startsWithL s.data pat.data

/-- Does `pat` occur anywhere in `l`? (Python `pat in s`) -/
def containsL (l pat : List Char) : Bool :=
  match l with
  | [] => startsWithL [] pat
  | _ :: cs => startsWithL l pat || containsL cs pat

/-- Python `pat in s` (substring containment). -/
def pyIn (pat s : String) : Bool := containsL s.data pat.data

/-- Python `str.rstrip(chars)` for a single character. -/
def pyRStripChar (s : String) (c : Char) : String :=
  String.mk ((s.data.reverse.dropWhile (· = c)).reverse)

/-- Python `str.upper()` (ASCII letters; the tokens handled here are ASCII). -/
def pyUpper (s : String) : String := String.mk (s.data.map Char.toUpper)

/-- Python `str.lower()` (ASCII letters). -/
def pyLower (s : String) : String := String.mk (s.data.map Char.toLower)

/-- Split `l` on every occurrence of the (non-empty) separator `sep`;
Python `str.split(sep)`.  Fuel-driven; `fuel = l.length` suffices. -/
def splitOnL (fuel : Nat) (sep : List Char) (l : List Char) (acc : List Char) :
    List (List Char) :=
  match fuel with
  | 0 => [acc.reverse ++ l]
  | f + 1 =>
    if startsWithL l sep then
      acc.reverse :: splitOnL f sep (l.drop sep.length) []
    else
      match l with
      | [] => [acc.reverse]
      | c :: cs => splitOnL f sep cs (c :: acc)

/-- Python `s.split(sep)` for a non-empty separator. -/
def pySplit (s sep : String) : List String :=
  (splitOnL (s.data.length + 1) sep.data s.data []).map String.mk

/-- Python `s.split()` (split on whitespace runs, no empty parts). -/
def pySplitWS (s : String) : List String :=
  ((s.data.splitOnP isWS).map String.mk).filter (· ≠ "")

/-- Python `s.replace(sub, repl)` for a non-empty `sub`. -/
def pyReplace (s sub repl : String) : String :=
  String.mk (((splitOnL (s.data.length + 1) sub.data s.data []).intersperse
    repl.data).flatten)

/-- Truthiness of a Python string: non-empty. -/
def pyTruthy (s : String) : Bool := s ≠ ""

/-- Python `a or b` on strings. -/
def pyOrS (a b : String) : String := if pyTruthy a then a else b

/-- Python `x or ""` for an optional string attribute (`None` → `""`). -/
def orEmpty (o : Option String) : String := o.getD ""

/-- An optional string that is present and non-empty
(Python truthiness of `d.get(k)`). -/
def pyTruthyOpt (o : Option String) : Bool :=
  match o with
  | some s => pyTruthy s
  | none => false

/-- A non-empty string as `some`, an empty one as `none`
(Python `s.upper() or None` patterns). -/
def strToOpt (s : String) : Option String := if pyTruthy s then some s else none

/-! ## Decimal numbers: exact model of the Python floats appearing here

`float(text)` applied to plain decimal literals (the only use in the
source: microdata `content` attributes and regex captures of the form
`[\d.]+`) is modelled exactly as a mantissa together with a number of
decimal places: the value of `⟨m, p⟩` is `m / 10^p`. -/

structure Dec where
  mant : Int
  places : Nat
deriving Repr, DecidableEq

/-- The rational value denoted by a `Dec`. -/
def Dec.val (d : Dec) : ℚ := (d.mant : ℚ) / ((10 : ℚ) ^ d.places)

/-- Is the decimal an integer value (the denominator divides the mantissa)? -/
def Dec.isInt (d : Dec) : Bool := d.mant % ((10 : Int) ^ d.places) = 0

/-- Python `int(x)` on a float: truncation toward zero. -/
def Dec.trunc (d : Dec) : Int := d.mant.tdiv ((10 : Int) ^ d.places)

/-- Numeric value of a digit character. -/
def digitVal (c : Char) : Nat := c.toNat - '0'.toNat

/-- Accumulate a digit run into a natural number. -/
def digitsToNat (l : List Char) : Nat :=
  l.foldl (fun n c => n * 10 + digitVal c) 0

/-- Parse `digits [. digits]` (at least one digit overall) into a `Dec`.
Helper for `pyFloat`. -/
def parseUnsignedDec (l : List Char) : Option Dec :=
  let intPart := l.takeWhile Char.isDigit
  let rest := l.dropWhile Char.isDigit
  match rest with
  | [] => if intPart.isEmpty then none else some ⟨digitsToNat intPart, 0⟩
  | '.' :: rest' =>
    let fracPart := rest'.takeWhile Char.isDigit
    if rest'.dropWhile Char.isDigit ≠ [] then none
    else if intPart.isEmpty && fracPart.isEmpty then none
    else some ⟨digitsToNat (intPart ++ fracPart), fracPart.length⟩
  | _ => none

/-- Python `float(s)` on the literals reached by this module: optional
sign, digit run with an optional single decimal point.  Anything else
raises `ValueError`, modelled as `Except.error`. -/
def pyFloat (s : String) : Except String Dec :=
  match trimChars s.data with
  | '-' :: rest =>
    match parseUnsignedDec rest with
    | some d => .ok ⟨-d.mant, d.places⟩
    | none => .error "could not convert string to float"
  | '+' :: rest =>
    match parseUnsignedDec rest with
    | some d => .ok d
    | none => .error "could not convert string to float"
  | l =>
    match parseUnsignedDec l with
    | some d => .ok d
    | none => .error "could not convert string to float"

/-! ## The document model -/

/-- A parsed HTML document node: an element with a tag name, attributes
and children, or a text node. -/
inductive Node where
  | el (tag : String) (attrs : List (String × String)) (children : List Node)
  | txt (s : String)
deriving Repr

/-- Attribute lookup, Python `tag.get(name)` (text nodes have none). -/
def Node.getAttr (n : Node) (k : String) : Option String :=
  match n with
  | .el _ attrs _ => (attrs.find? (fun p => p.1 = k)).map (fun p => p.2)
  | .txt _ => none

/-- Tag test for elements. -/
def Node.isTag (n : Node) (t : String) : Bool :=
  match n with
  | .el tag _ _ => tag = t
  | .txt _ => false

/-- Does the element's `class` attribute contain the given class token
(BeautifulSoup `class_=` matching)? -/
def Node.hasClass (n : Node) (c : String) : Bool :=
  match n.getAttr "class" with
  | some v => (pySplitWS v).contains c
  | none => false

mutual
/-- All text fragments below a node, in document order. -/
def Node.textFrags : Node → List String
  | .txt s => [s]
  | .el _ _ cs => textFragsList cs
def textFragsList : List Node → List String
  | [] => []
  | n :: ns => n.textFrags ++ textFragsList ns
end

/-- BeautifulSoup `get_text(separator=sep, strip=True)`: each fragment is
stripped, empty fragments are dropped, the rest joined with `sep`. -/
def Node.getTextWith (n : Node) (sep : String) : String :=
  String.intercalate sep (((n.textFrags).map pyStrip).filter (· ≠ ""))

/-- BeautifulSoup `get_text(strip=True)`. -/
def Node.getTextStrip (n : Node) : String := n.getTextWith ""

/-- A node's position in its document: the node itself, its ancestors
(innermost first) and the siblings following it in its parent. -/
structure Ctx where
  node : Node
  anc : List Node
  after : List Node
deriving Repr

mutual
/-- All element contexts in a subtree, pre-order (document order). -/
def ctxsOf (anc : List Node) (after : List Node) : Node → List Ctx
  | n@(.el _ _ cs) => ⟨n, anc, after⟩ :: ctxsList (n :: anc) cs
  | .txt _ => []
def ctxsList (anc : List Node) : List Node → List Ctx
  | [] => []
  | c :: rest => ctxsOf anc rest c ++ ctxsList anc rest
end

/-- Contexts of every element of the document, the root included. -/
def Node.contexts (doc : Node) : List Ctx := ctxsOf [] [] doc

/-- Element descendants of a node (excluding the node itself), document
order — the search space of BeautifulSoup `tag.find` / `tag.find_all`. -/
def Node.descEls (n : Node) : List Node :=
  match n with
  | .el _ _ cs => (ctxsList [n] cs).map Ctx.node
  | .txt _ => []

/-- First element descendant satisfying a predicate (`tag.find`). -/
def Node.findEl (n : Node) (p : Node → Bool) : Option Node :=
  n.descEls.find? p

/-- All element descendants satisfying a predicate (`tag.find_all`). -/
def Node.findAllEls (n : Node) (p : Node → Bool) : List Node :=
  n.descEls.filter p

/-- BeautifulSoup `find_next_sibling(tag)`: the first following sibling
element with the given tag name. -/
def Ctx.nextSiblingTag (c : Ctx) (t : String) : Option Node :=
  c.after.find? (fun s => s.isTag t)

mutual
/-- Serialization of a node, `str(soup)` (attribute values quoted with
double quotes; the concrete documents in this file avoid characters that
BeautifulSoup would escape). -/
def Node.render : Node → String
  | .txt s => s
  | .el t attrs cs =>
    "<" ++ t ++ String.join (attrs.map (fun p => " " ++ p.1 ++ "=\x22" ++ p.2 ++ "\x22"))
      ++ ">" ++ renderList cs ++ "</" ++ t ++ ">"
def renderList : List Node → String
  | [] => ""
  | n :: ns => n.render ++ renderList ns
end

/-! ## Python JSON values and `json.loads` -/

/-- A Python value produced by `json.loads`. -/
inductive PyJson where
  | null
  | bool (b : Bool)
  | num (d : Dec)
  | str (s : String)
  | arr (xs : List PyJson)
  | obj (kvs : List (String × PyJson))
deriving Repr

/-- Python truthiness of a JSON value (`None`, `False`, `0`, `""`, `[]`,
`{}` are falsy). -/
def PyJson.truthy : PyJson → Bool
  | .null => false
  | .bool b => b
  | .num d => d.mant ≠ 0
  | .str s => s ≠ ""
  | .arr xs => !xs.isEmpty
  | .obj kvs => !kvs.isEmpty

/-- Python `x.get(k)`: `AttributeError` (modelled as `.error`) unless `x`
is a dict; `None` (modelled as `none`) for a missing key. -/
def PyJson.dictGet (j : PyJson) (k : String) : Except String (Option PyJson) :=
  match j with
  | .obj kvs => .ok ((kvs.find? (fun p => p.1 = k)).map (fun p => p.2))
  | _ => .error "object has no attribute get"

/-- Python `x or {}` on an optional JSON value. -/
def pyOrEmptyDict (o : Option PyJson) : PyJson :=
  match o with
  | some j => if j.truthy then j else .obj []
  | none => .obj []

/-- Skip JSON whitespace. -/
def skipWS (l : List Char) : List Char := l.dropWhile isWS

/-- Parse a JSON string body (after the opening quote); the basic escapes
reachable by the documents considered here. -/
def jStr : Nat → List Char → List Char → Except String (String × List Char)
  | 0, _, _ => .error "json: out of fuel"
  | _, [], _ => .error "json: unterminated string"
  | f + 1, c :: cs, acc =>
    if c = '"' then .ok (String.mk acc.reverse, cs)
    else if c = '\\' then
      match cs with
      | [] => .error "json: bad escape"
      | e :: cs' =>
        let ec := if e = 'n' then '\n' else if e = 't' then '\t' else e
        jStr f cs' (ec :: acc)
    else jStr f cs (c :: acc)

/-- Parse a JSON number (integer or decimal; the payloads in this module
use no exponents). -/
def jNum (l : List Char) : Except String (Dec × List Char) :=
  let sgn : Bool := match l with | '-' :: _ => true | _ => false
  let l1 := match l with | '-' :: r => r | _ => l
  let ip := l1.takeWhile Char.isDigit
  let r1 := l1.dropWhile Char.isDigit
  if ip.isEmpty then .error "json: bad number"
  else
    match r1 with
    | '.' :: r2 =>
      let fp := r2.takeWhile Char.isDigit
      if fp.isEmpty then .error "json: bad number"
      else
        .ok (⟨(if sgn then -(digitsToNat (ip ++ fp) : Int) else (digitsToNat (ip ++ fp) : Int)),
              fp.length⟩, r2.dropWhile Char.isDigit)
    | _ => .ok (⟨(if sgn then -(digitsToNat ip : Int) else (digitsToNat ip : Int)), 0⟩, r1)

mutual
/-- Parse one JSON value. -/
def jVal : Nat → List Char → Except String (PyJson × List Char)
  | 0, _ => .error "json: out of fuel"
  | f + 1, l =>
    match skipWS l with
    | '"' :: cs =>
      match jStr (cs.length + 1) cs [] with
      | .error e => .error e
      | .ok (s, r) => .ok (.str s, r)
    | '\x7b' :: cs =>
      match skipWS cs with
      | '\x7d' :: r => .ok (.obj [], r)
      | _ => jObjItems f cs []
    | '[' :: cs =>
      match skipWS cs with
      | ']' :: r => .ok (.arr [], r)
      | _ => jArrItems f cs []
    | l' =>
      if startsWithL l' "true".data then .ok (.bool true, l'.drop 4)
      else if startsWithL l' "false".data then .ok (.bool false, l'.drop 5)
      else if startsWithL l' "null".data then .ok (.null, l'.drop 4)
      else
        match jNum l' with
        | .error e => .error e
        | .ok (d, r) => .ok (.num d, r)

/-- Parse the members of a JSON object (after the opening brace). -/
def jObjItems : Nat → List Char → List (String × PyJson) →
    Except String (PyJson × List Char)
  | 0, _, _ => .error "json: out of fuel"
  | f + 1, l, acc =>
    match skipWS l with
    | '"' :: cs =>
      match jStr (cs.length + 1) cs [] with
      | .error e => .error e
      | .ok (k, r) =>
        match skipWS r with
        | ':' :: r2 =>
          match jVal f r2 with
          | .error e => .error e
          | .ok (v, r3) =>
            match skipWS r3 with
            | ',' :: r4 => jObjItems f r4 ((k, v) :: acc)
            | '\x7d' :: r4 => .ok (.obj (((k, v) :: acc).reverse), r4)
            | _ => .error "json: expected comma or brace"
        | _ => .error "json: expected colon"
    | _ => .error "json: expected key"

/-- Parse the elements of a JSON array (after the opening bracket). -/
def jArrItems : Nat → List Char → List PyJson →
    Except String (PyJson × List Char)
  | 0, _, _ => .error "json: out of fuel"
  | f + 1, l, acc =>
    match jVal f l with
    | .error e => .error e
    | .ok (v, r) =>
      match skipWS r with
      | ',' :: r2 => jArrItems f r2 (v :: acc)
      | ']' :: r2 => .ok (.arr ((v :: acc).reverse), r2)
      | _ => .error "json: expected comma or bracket"
end

/-- Python `json.loads`. -/
def jsonParse (s : String) : Except String PyJson :=
  match jVal (s.data.length + 1) s.data with
  | .error e => .error e
  | .ok (v, rest) =>
    if (skipWS rest).isEmpty then .ok v else .error "json: extra data"

/-! ## Text primitives (modelled from the spec)

`extract_int_price` and `extract_currency` are imported by the source
module from `base`, which is not among the source files; they are
modelled from §4.1 of the spec. -/

/-- Modelled from the spec: `extract_int_price(text)` from the missing
`base` module — "scans free text for the first numeric run that looks
like a price (digit groups optionally separated by thousands separators,
optional decimal part), strips separators, and rounds/truncates to an
integer. Returns `None` when no plausible numeric price substring
exists." -/
def extract_int_price (s : String) : Option Int :=
  match s.data.dropWhile (fun c => !c.isDigit) with
  | [] => none
  | l =>
    some ((digitsToNat ((l.takeWhile (fun c => c.isDigit || c = ',')).filter
      Char.isDigit) : Int))

/-- `extract_int_price` lifted to `Optional[str]` arguments (the source
passes `None` through it; a `None` argument yields `None`). -/
def extract_int_price? (o : Option String) : Option Int :=
  o.bind extract_int_price

/-- Modelled from the spec: `extract_currency(text)` from the missing
`base` module — "maps known currency symbols/prefixes (e.g., a Ringgit
marker, Euro sign, Dollar sign) and known 3-letter codes found in the
text to an upper-cased currency token; returns `None` when no
recognizable token is present." -/
def extract_currency (s : String) : Option String :=
  if pyIn "RM" s then some "MYR"
  else if pyIn "€" s then some "EUR"
  else if pyIn "$" s then some "USD"
  else if pyIn "MYR" (pyUpper s) then some "MYR"
  else if pyIn "EUR" (pyUpper s) then some "EUR"
  else if pyIn "USD" (pyUpper s) then some "USD"
  else if pyIn "GBP" (pyUpper s) then some "GBP"
  else none

/-- `extract_currency` lifted to `Optional[str]` arguments. -/
def extract_currency? (o : Option String) : Option String :=
  o.bind extract_currency

/-! ## Regular-expression scanners

Each `re` pattern of the source is embedded as a dedicated scanner with
the pattern's leftmost-first search semantics.  The lazy gaps (`.*?`) of
the Lululemon patterns are treated as unconstrained; the documents used
in this development contain no newline, on which this agrees with the
single-line patterns of the source. -/

/-- `re.search(r"/p/([^/]+)/", url)` matched at the head of the list:
the greedy non-slash run after `/p/` must be followed by a slash. -/
def pSegAt (l : List Char) : Option String :=
  match l with
  | '/' :: 'p' :: '/' :: rest =>
    let seg := rest.takeWhile (· ≠ '/')
    if seg.isEmpty then none
    else
      match rest.dropWhile (· ≠ '/') with
      | '/' :: _ => some (String.mk seg)
      | _ => none
  | _ => none

/-- `re.search(r"/p/([^/]+)/", url)`: group 1 of the leftmost match. -/
def searchPSeg : List Char → Option String
  | [] => none
  | l@(_ :: cs) =>
    match pSegAt l with
    | some s => some s
    | none => searchPSeg cs

/-- After a currency marker: `\s*` then at least one of `[\d,]`. -/
def wsNumAfter (l : List Char) : Bool :=
  match l.dropWhile isWS with
  | c :: _ => c.isDigit || c = ','
  | [] => false

/-- One alternative of `RM\s*[\d,]+|€\s*[\d,]+|\$\s*[\d,]+` matched at
the head of the list. -/
def bPriceTextAt (l : List Char) : Bool :=
  (startsWithL l ['R', 'M'] && wsNumAfter (l.drop 2)) ||
  (match l with
   | c :: cs => (c = '€' || c = '$') && wsNumAfter cs
   | [] => false)

/-- `re.search(r"RM\s*[\d,]+|€\s*[\d,]+|\$\s*[\d,]+", txt)` as a Boolean. -/
def bPriceTextMatch : List Char → Bool
  | [] => false
  | l@(_ :: cs) => bPriceTextAt l || bPriceTextMatch cs

/-- `re.search(r"pid=([A-Za-z0-9_-]+)", s)`: characters admitted by the
captured class. -/
def isIdChar (c : Char) : Bool := c.isAlphanum || c = '_' || c = '-'

/-- `re.search(r"pid=([A-Za-z0-9_-]+)", s)`: group 1 of the leftmost
match. -/
def pidScan : List Char → Option String
  | [] => none
  | l@(_ :: cs) =>
    if startsWithL l "pid=".data then
      let run := (l.drop 4).takeWhile isIdChar
      if run.isEmpty then pidScan cs else some (String.mk run)
    else pidScan cs

/-- Does `_[A-Z]\.jpg` match at the head of the list? -/
def jpgSuffixAt (l : List Char) : Bool :=
  match l with
  | '_' :: c :: rest => c.isUpper && startsWithL rest ".jpg".data
  | _ => false

/-- `re.search(r"/([A-Za-z0-9_-]+)_[A-Z]\.jpg", src)` matched at the head
of the list: the greedy run backtracks from its maximal length until
`_[A-Z]\.jpg` follows. -/
def imgIdAt (l : List Char) : Option String :=
  match l with
  | '/' :: tail =>
    let m := (tail.takeWhile isIdChar).length
    match (List.range (m + 1)).reverse.find?
        (fun k => decide (1 ≤ k) && jpgSuffixAt (tail.drop k)) with
    | some k => some (String.mk (tail.take k))
    | none => none
  | _ => none

/-- `re.search(r"/([A-Za-z0-9_-]+)_[A-Z]\.jpg", src)`: group 1 of the
leftmost match. -/
def imgIdScan : List Char → Option String
  | [] => none
  | l@(_ :: cs) =>
    match imgIdAt l with
    | some s => some s
    | none => imgIdScan cs

/-- The suffix of `l` right after the first occurrence of `pat`
(`None` when `pat` does not occur). -/
def dropToSub (pat : List Char) : List Char → Option (List Char)
  | [] => if pat.isEmpty then some [] else none
  | l@(_ :: cs) =>
    if startsWithL l pat then some (l.drop pat.length) else dropToSub pat cs

/-- `re.search(r'"whyWeMadeThisAttributes":\{.*?"text":"(.*?)".*?\}', html)`:
group 1 of the match (landmark chaining of the lazy gaps). -/
def lluDescScan (html : List Char) : Option String :=
  match dropToSub ("\"whyWeMadeThisAttributes\":\x7b".data) html with
  | none => none
  | some r1 =>
    match dropToSub ("\"text\":\"".data) r1 with
    | none => none
    | some r2 =>
      let cap := r2.takeWhile (· ≠ '"')
      match r2.dropWhile (· ≠ '"') with
      | '"' :: r3 => if r3.contains '\x7d' then some (String.mk cap) else none
      | _ => none

/-- `re.search(rf'"id":\s*"{sku}".*?}}', html)` matched at the head of
the list: the whole matched substring (group 0), which extends to the
first closing brace. -/
def lluIdSegAt (sku : List Char) (l : List Char) : Option (List Char) :=
  if startsWithL l "\"id\":".data then
    let afterKey := l.drop 5
    let ws := afterKey.takeWhile isWS
    let r1 := afterKey.dropWhile isWS
    if startsWithL r1 ('"' :: (sku ++ ['"'])) then
      let r2 := r1.drop (sku.length + 2)
      let before := r2.takeWhile (· ≠ '\x7d')
      match r2.dropWhile (· ≠ '\x7d') with
      | '\x7d' :: _ =>
        some ("\"id\":".data ++ ws ++ ('"' :: (sku ++ ['"'])) ++ before ++ ['\x7d'])
      | _ => none
    else none
  else none

/-- `re.search(rf'"id":\s*"{sku}".*?}}', html)`: group 0 of the leftmost
match. -/
def lluIdSegScan (sku : List Char) : List Char → Option (List Char)
  | [] => none
  | l@(_ :: cs) =>
    match lluIdSegAt sku l with
    | some m => some m
    | none => lluIdSegScan sku cs

/-- A greedy `[\d.]+` capture that must be followed by a double quote:
the capture and the rest after the quote. -/
def numCap (l : List Char) : Option (String × List Char) :=
  let run := l.takeWhile (fun c => c.isDigit || c = '.')
  if run.isEmpty then none
  else
    match l.dropWhile (fun c => c.isDigit || c = '.') with
    | '"' :: r => some (String.mk run, r)
    | _ => none

/-- Scan for `key` followed by a quote-terminated `[\d.]+` capture. -/
def priceCapScan (key : List Char) : List Char → Option (String × List Char)
  | [] => none
  | l@(_ :: cs) =>
    if startsWithL l key then
      match numCap (l.drop key.length) with
      | some p => some p
      | none => priceCapScan key cs
    else priceCapScan key cs

/-- `re.search(r'"list-price":"([\d.]+)".*?"sale-price":"([\d.]+)"', seg)`:
the two captured groups. -/
def lluPrices (seg : List Char) : Option (String × String) :=
  match priceCapScan ("\"list-price\":\"".data) seg with
  | none => none
  | some (lp, rest) =>
    match priceCapScan ("\"sale-price\":\"".data) rest with
    | none => none
    | some (sp, _) => some (lp, sp)

/-- `re.compile(r"select\s*colou?r", re.I)` matched at the head of an
already lower-cased list. -/
def colorLabelAt (l : List Char) : Bool :=
  if startsWithL l "select".data then
    let r := (l.drop 6).dropWhile isWS
    startsWithL r "colour".data || startsWithL r "color".data
  else false

/-- `re.compile(r"select\s*colou?r", re.I)` as a search. -/
def colorLabelSearch : List Char → Bool
  | [] => false
  | l@(_ :: cs) => colorLabelAt l || colorLabelSearch cs

/-- BeautifulSoup attribute matching against the compiled pattern
`re.compile(r"select\s*colou?r", re.I)` (a `re.search` of the value). -/
def ariaSelectColor (s : String) : Bool := colorLabelSearch (pyLower s).data

/-! ## Site configuration -/

/-- The `list` sub-structure of a site configuration. -/
structure ListCfg where
  product_urls : Option (List String)
deriving Repr

/-- A site configuration value (read-only input). -/
structure Config where
  base_url : Option String
  brand : Option String
  list : Option ListCfg
deriving Repr

/-! ## Canonical records and normalization -/

/-- The canonical record manipulated by the normalize overrides.  `none`
plays the role of both an absent key and a `None` value (the source only
reads these fields through `dict.get` / removes them through `dict.pop`,
which identify the two). -/
structure NRec where
  product_name : Option String
  product_link : Option String
  sale_price : Option Int
  regular_price : Option Int
  currency : Option String
  brand : Option String
  product_id : Option String
  category : Option String
  color_list : Option (List String)
  color_count : Option Nat
  image_url : Option String
  product_description : Option String
  attributes : Option (List String)
  rating : Option Dec
  rating_count : Option Nat
  raw : Option String
deriving Repr, DecidableEq

/-- Modelled from the spec: `default_normalize` from `core.normalize`,
which is not among the source files — §4.5: "applies a default
field-mapping" of raw extracted field names/shapes into the canonical
schema.  On a record already carrying the canonical field names — as the
records handled by the overrides below do — that mapping is the
identity. -/
def default_normalize (r : NRec) : NRec := r

/-- `sites.parsers.chanel_normalize`. -/
def chanel_normalize (item : NRec) : NRec :=
  let r1 := default_normalize item
  let r2 :=
    if r1.regular_price = none ∧ r1.sale_price ≠ none then
      { r1 with regular_price := r1.sale_price }
    else r1
  { r2 with rating := none, rating_count := none, raw := none }

/-- `sites.parsers._ysl_first_capitalized_word`. -/
def _ysl_first_capitalized_word (name : String) : String :=
  if name = "" then ""
  else
    let words := pySplitWS name
    match words.find? (fun w =>
        match w.data with
        | [] => false
        | c :: _ => c.isUpper) with
    | some w => w
    | none => words.headD ""

/-- `sites.parsers.ysl_normalize`. -/
def ysl_normalize (item : NRec) : NRec :=
  let r1 := default_normalize item
  let r2 :=
    if pyTruthyOpt r1.product_name then
      { r1 with category := some (_ysl_first_capitalized_word (orEmpty r1.product_name)) }
    else r1
  let r3 :=
    if r2.regular_price = none ∧ r2.sale_price ≠ none then
      { r2 with regular_price := r2.sale_price }
    else r2
  { r3 with rating := none, rating_count := none, attributes := none, raw := none }

/-! ## Balenciaga -/

/-- All element nodes of a document (soup-level `find` / `select` search
space; concrete documents below use a `"[document]"` wrapper as root, as
BeautifulSoup does). -/
def Node.docEls (doc : Node) : List Node := doc.contexts.map Ctx.node

/-- The record built per anchor by the Balenciaga fallback (the dict
literal at the end of its loop body). -/
structure BRec where
  product_name : String
  product_link : String
  sale_price : Option Int
  regular_price : Option Int
  currency : Option String
  brand : String
  product_id : Option String
  category : Option String
deriving Repr, DecidableEq

/-- `node.find(attrs={"itemprop": "price"})`. -/
def findPriceEl (n : Node) : Option Node :=
  n.findEl (fun d => d.getAttr "itemprop" = some "price")

/-- `node.find(attrs={"itemprop": "priceCurrency"})`. -/
def findCurrEl (n : Node) : Option Node :=
  n.findEl (fun d => d.getAttr "itemprop" = some "priceCurrency")

/-- The bounded ancestor walk for a heading name: up to `fuel` ancestors,
the first `h2`/`h3` descendant with non-empty text replaces the name. -/
def bNameWalk : Nat → List Node → String → String
  | 0, _, name => name
  | _ + 1, [], name => name
  | f + 1, parent :: rest, name =>
    match parent.findEl (fun d => d.isTag "h2" || d.isTag "h3") with
    | some h => if h.getTextStrip ≠ "" then h.getTextStrip else bNameWalk f rest name
    | none => bNameWalk f rest name

/-- Price/currency resolution once a price-microdata element has been
found in ancestor `node` (the body of the `if price_el:` branch). -/
def bMicroAt (node : Node) (priceEl : Node) : Option Int × Option String :=
  let s1 : Option Int :=
    match priceEl.getAttr "content" with
    | some c =>
      if pyTruthy c then
        match pyFloat c with
        | .ok d => some d.trunc
        | .error _ => extract_int_price c
      else none
    | none => none
  let sale : Option Int :=
    match s1 with
    | some v => some v
    | none => extract_int_price priceEl.getTextStrip
  let curr1 : Option String :=
    match findCurrEl node with
    | some ce => strToOpt (pyUpper (pyOrS (orEmpty (ce.getAttr "content")) ce.getTextStrip))
    | none => none
  let curr : Option String :=
    match curr1 with
    | some v => some v
    | none => extract_currency priceEl.getTextStrip
  (sale, curr)

/-- The bounded microdata ancestor walk: up to `fuel` ancestors; at the
first one containing a price element the loop resolves and breaks. -/
def bMicroWalk : Nat → List Node → Option (Option Int × Option String)
  | 0, _ => none
  | _ + 1, [] => none
  | f + 1, node :: rest =>
    match findPriceEl node with
    | some priceEl => some (bMicroAt node priceEl)
    | none => bMicroWalk f rest

/-- The bounded visible-text ancestor walk: up to `fuel` ancestors; the
first whose separator-joined text matches the currency-number pattern
supplies the price text. -/
def bTextWalk : Nat → List Node → Option String
  | 0, _ => none
  | _ + 1, [] => none
  | f + 1, node :: rest =>
    let t := node.getTextWith " "
    if bPriceTextMatch t.data then some t else bTextWalk f rest

/-- The full price/currency resolution of the Balenciaga fallback for one
anchor, given its ancestor chain (innermost first). -/
def bPriceCurrency (ancestors : List Node) : Option Int × Option String :=
  match bMicroWalk 8 ancestors with
  | some (sale, curr) =>
    if sale.isSome then (sale, curr)
    else
      match bTextWalk 5 ancestors with
      | some t => (extract_int_price t, extract_currency t)
      | none => (none, curr)
  | none =>
    match bTextWalk 5 ancestors with
    | some t => (extract_int_price t, extract_currency t)
    | none => (none, none)

/-- Is a node one of the anchors collected by
`soup.select("a[href*='.html']")`? -/
def isProductAnchor (n : Node) : Bool :=
  n.isTag "a" &&
    (match n.getAttr "href" with
     | some h => pyIn ".html" h
     | none => false)

/-- The matched anchors in document order, each with its ancestor chain
(innermost first). -/
def anchorsWithAnc (doc : Node) : List (Node × List Node) :=
  (doc.contexts.filter (fun c => isProductAnchor c.node)).map
    (fun c => (c.node, c.anc))

/-- One iteration of the fallback's anchor loop: `none` when the anchor
is skipped by the `continue` filters. -/
def bAnchorItem (base_url brand : String) (a : Node) (ancestors : List Node) :
    Option BRec :=
  let href := orEmpty (a.getAttr "href")
  if pyIn "searchajax" href || pyIn "prefn" href then none
  else if !pyIn "balenciaga.com" href && !pyStartsWith href "/" then none
  else
    let product_link :=
      if pyStartsWith href "/" then
        (if pyTruthy base_url then base_url ++ href else href)
      else href
    let name := bNameWalk 5 ancestors (pyOrS a.getTextStrip "(no name)")
    let pc := bPriceCurrency ancestors
    some { product_name := name, product_link := product_link,
           sale_price := pc.1, regular_price := pc.1, currency := pc.2,
           brand := brand, product_id := none, category := none }

/-- The de-duplication pass at the end of the fallback: keep records with
a truthy link not seen before (first occurrence wins). -/
def bDedup (seen : List String) : List BRec → List BRec
  | [] => []
  | it :: rest =>
    if it.product_link ≠ "" ∧ it.product_link ∉ seen then
      it :: bDedup (it.product_link :: seen) rest
    else bDedup seen rest

/-- The `items` list accumulated by the fallback's anchor loop, before
de-duplication. -/
def bItems (doc : Node) (cfg : Config) : List BRec :=
  (anchorsWithAnc doc).filterMap
    (fun p => bAnchorItem (pyRStripChar (orEmpty cfg.base_url) '/')
      (cfg.brand.getD "balenciaga") p.1 p.2)

/-- `sites.parsers._balenciaga_parse_by_product_links`. -/
def balenciagaParseByProductLinks (doc : Node) (cfg : Config) : List BRec :=
  bDedup [] (bItems doc cfg)

/-- `sites.parsers.balenciaga_list_parser` (camel-cased name), with the
Generic Extractor `parse_list_generic` — imported from the `base` module,
which is not among the source files — abstracted as a function
argument. -/
def balenciagaListExtract (generic : Node → Config → List BRec)
    (raw : Node) (cfg : Config) : List BRec :=
  let items := generic raw cfg
  if items.isEmpty then balenciagaParseByProductLinks raw cfg else items

/-- The partial record returned by the Balenciaga detail extractor. -/
structure BDetail where
  product_name : Option String
  product_description : Option String
  image_url : Option String
  category : Option String
  product_id : Option String
  sale_price : Option Int
  currency : Option String
deriving Repr, DecidableEq

/-- `sites.parsers.balenciaga_detail_parser` (camel-cased name).  Its
only fallible operation, `int(float(content_val))`, is caught locally, so
the embedding always returns `.ok`. -/
def balenciagaDetailExtract (raw : Node) (_cfg : Config) :
    Except String BDetail :=
  let name_el :=
    match raw.docEls.find? (fun n => n.isTag "h1" && n.hasClass "c-product__name") with
    | some n => some n
    | none => raw.docEls.find? (fun n => n.getAttr "itemprop" = some "name")
  let product_name := name_el.map Node.getTextStrip
  let product_description :=
    (raw.docEls.find? (fun n => n.isTag "p" && n.hasClass "c-product__longdesc")).map
      Node.getTextStrip
  let img_el :=
    match raw.docEls.find? (fun n => n.isTag "img" && n.hasClass "c-product__image") with
    | some n => some n
    | none => raw.docEls.find? (fun n =>
        n.isTag "img" && n.getAttr "itemprop" = some "image")
  let image_url : Option String :=
    match img_el with
    | some img =>
      strToOpt (pyOrS (orEmpty (img.getAttr "src")) (orEmpty (img.getAttr "data-src")))
    | none => none
  let category : Option String :=
    (raw.docEls.filter (fun n => n.hasClass "c-breadcrumbs__link")).findSome?
      (fun link =>
        match link.findEl (fun s =>
            s.isTag "span" && s.getAttr "itemprop" = some "name") with
        | some span =>
          if span.getTextStrip ≠ "" then
            some (pyReplace span.getTextStrip "&amp;" "&")
          else none
        | none => none)
  let pid0 : Option String :=
    match raw.docEls.find? (fun n => n.isTag "button" &&
        (match n.getAttr "data-url" with
         | some u => pyIn "pid=" u
         | none => false)) with
    | some btn => pidScan (orEmpty (btn.getAttr "data-url")).data
    | none => none
  let pid : Option String :=
    match pid0 with
    | some p => some p
    | none =>
      match img_el with
      | some img =>
        imgIdScan (pyOrS (orEmpty (img.getAttr "src"))
          (orEmpty (img.getAttr "data-src"))).data
      | none => none
  let sale_price : Option Int :=
    match raw.docEls.find? (fun n => n.getAttr "itemprop" = some "price") with
    | some priceEl =>
      let s1 : Option Int :=
        match priceEl.getAttr "content" with
        | some c =>
          if pyTruthy c then
            match pyFloat c with
            | .ok d => some d.trunc
            | .error _ => extract_int_price c
          else none
        | none => none
      (match s1 with
       | some v => some v
       | none => extract_int_price priceEl.getTextStrip)
    | none => none
  let currency : Option String :=
    match raw.docEls.find? (fun n => n.getAttr "itemprop" = some "priceCurrency") with
    | some ce => strToOpt (pyUpper (pyOrS (orEmpty (ce.getAttr "content")) ce.getTextStrip))
    | none => none
  .ok { product_name := product_name, product_description := product_description,
        image_url := image_url, category := category, product_id := pid,
        sale_price := sale_price, currency := currency }

/-! ## Chanel -/

/-- `sites.parsers._chanel_extract_product_id_from_url`. -/
def _chanel_extract_product_id_from_url (url : String) : Option String :=
  if url = "" then none else searchPSeg url.data

/-- The minimal record built by the Chanel literal-URL-list branch. -/
structure ChItem where
  product_link : String
  product_id : Option String
  product_name : String
  brand : String
deriving Repr, DecidableEq

/-- The loop of the Chanel literal-URL-list branch: strip each URL, skip
blank or already-seen ones, emit a minimal record. -/
def chanelFromUrls (brand : String) (seen : List String) :
    List String → List ChItem
  | [] => []
  | u :: rest =>
    let url := pyStrip u
    if url = "" ∨ url ∈ seen then chanelFromUrls brand seen rest
    else
      { product_link := url,
        product_id := _chanel_extract_product_id_from_url url,
        product_name := "", brand := brand } ::
        chanelFromUrls brand (url :: seen) rest

/-- `sites.parsers.chanel_list_parser` (camel-cased name), the Generic
Extractor abstracted as a function argument. -/
def chanelListExtract (generic : Node → Config → List ChItem)
    (raw : Node) (cfg : Config) : List ChItem :=
  match cfg.list.bind (fun lc => lc.product_urls) with
  | some urls =>
    if !urls.isEmpty then chanelFromUrls (cfg.brand.getD "chanel") [] urls
    else generic raw cfg
  | none => generic raw cfg

/-- An `{"name": ..., "value": ...}` attribute entry. -/
structure NamedAttr where
  name : String
  value : String
deriving Repr, DecidableEq

/-- The partial record returned by the Chanel detail extractor. -/
structure ChDetail where
  product_description : Option String
  category : Option String
  attributes : Option (List NamedAttr)
  color_list : Option (List String)
  color_count : Option Nat
  sale_price : Option Int
  currency : Option String
  regular_price : Option Int
  image_url : Option String
deriving Repr, DecidableEq

mutual
/-- Text fragments with every `br` element replaced by the `"|||"`
marker (the `br.replace_with("|||")` loop before `get_text`). -/
def Node.textFragsBr : Node → List String
  | .txt s => [s]
  | .el t _ cs => if t = "br" then ["|||"] else textFragsBrList cs
def textFragsBrList : List Node → List String
  | [] => []
  | n :: ns => n.textFragsBr ++ textFragsBrList ns
end

/-- `get_text(strip=True)` after the `br` replacement. -/
def Node.getTextStripBr (n : Node) : String :=
  String.intercalate "" (((n.textFragsBr).map pyStrip).filter (· ≠ ""))

/-- `sites.parsers.chanel_detail_parser` (camel-cased name).  Its only
fallible operation is the guarded `img_el["src"]` subscript. -/
def chanelDetailExtract (soup : Node) (_cfg : Config) : Except String ChDetail :=
  let product_description : Option String :=
    match soup.docEls.find? (fun n =>
        n.getAttr "data-test" = some "strHeroSplittedCollectionName") with
    | some d => strToOpt d.getTextStrip
    | none => none
  let category : Option String :=
    match soup.docEls.find? (fun n =>
        n.getAttr "data-test" = some "strHeroSplittedProductName") with
    | some c => strToOpt c.getTextStrip
    | none => none
  let parts : List String :=
    match soup.docEls.find? (fun n =>
        n.getAttr "data-testid" = some "strProductDetails") with
    | some det =>
      ((pySplit det.getTextStripBr "|||").map pyStrip).filter (· ≠ "")
    | none => []
  let attributes : Option (List NamedAttr) :=
    match parts with
    | p0 :: _ => some [{ name := "Material", value := p0 }]
    | [] => none
  let colors : Option (List String) :=
    match parts with
    | _ :: p1 :: _ => some (((pySplit p1 ",").map pyStrip).filter (· ≠ ""))
    | _ => none
  let price_el : Option Node :=
    match soup.docEls.find? (fun n =>
        n.getAttr "id" = some "hero-splitted-price-product") with
    | some n => some n
    | none =>
      (soup.contexts.find? (fun c => c.node.isTag "span" &&
        c.anc.any (fun a =>
          a.getAttr "data-test" = some "strHeroSplittedProductPrice"))).map
        Ctx.node
  let sale_price : Option Int :=
    match price_el with
    | some p => extract_int_price p.getTextStrip
    | none => none
  let currency : Option String :=
    match price_el with
    | some p => extract_currency p.getTextStrip
    | none => none
  let img_el : Option Node :=
    match (soup.contexts.find? (fun c => c.node.isTag "img" &&
        c.anc.any (fun a => a.hasClass "cc-hero-splitted__img-wrapper"))).map
        Ctx.node with
    | some n => some n
    | none => soup.docEls.find? (fun n => n.hasClass "cc-hero-splitted__img-low")
  let base : ChDetail :=
    { product_description := product_description, category := category,
      attributes := attributes, color_list := colors,
      color_count := colors.map List.length,
      sale_price := if price_el.isSome then sale_price else none,
      currency := if price_el.isSome then currency else none,
      regular_price := if price_el.isSome then sale_price else none,
      image_url := none }
  match img_el with
  | some img =>
    if pyTruthyOpt (img.getAttr "src") then
      match img.getAttr "src" with
      | some v => .ok { base with image_url := some (pyStrip v) }
      | none => .error "KeyError: src"
    else .ok base
  | none => .ok base

/-! ## Louis Vuitton -/

/-- `sites.parsers.louisvuitton_detail_parser` (camel-cased name):
returns the empty record unconditionally. -/
def louisvuittonDetailExtract (_raw : Node) (_cfg : Config) :
    Except String Unit := .ok ()

/-! ## Lululemon -/

/-- The record built per product tile by the Lululemon list extractor
(`productID` keeps the raw JSON value found in the attributes payload). -/
structure LLItem where
  product_name : Option String
  product_link : Option String
  sale_price : Option Int
  regular_price : Option Int
  color_count : Option String
  productID : Option PyJson
  category : Option String
  brand : String
deriving Repr

/-- The body of the Lululemon per-tile loop; a `.error` is what the
source's `except Exception` catches for that one item. -/
def lluParseTile (base_url brand : String) (product : Node) :
    Except String LLItem :=
  let name_tag := product.findEl (fun n =>
    n.isTag "h3" && n.hasClass "product-tile__product-name")
  let product_name := name_tag.map Node.getTextStrip
  let link_tag := product.findEl (fun n => n.isTag "a" && n.hasClass "link")
  let href : Option String := link_tag.bind (fun lt => lt.getAttr "href")
  let product_link : Option String :=
    match href with
    | some h =>
      if pyTruthy h && !pyStartsWith h "http" then
        some (pyRStripChar base_url '/' ++ h)
      else strToOpt h
    | none => none
  let prices : Option String × Option String :=
    match product.findEl (fun n => n.isTag "span" && n.hasClass "price") with
    | some pc =>
      let price_text := pc.getTextStrip
      if pyIn "Sale Price" price_text then
        let parts := pySplit price_text "Regular Price"
        (some (pyStrip (pyReplace (parts.headD "") "Sale Price" "")),
         match parts with
         | _ :: p1 :: _ => some (pyStrip p1)
         | _ => none)
      else if pyIn "Regular Price" price_text then
        (none, some (pyStrip (pyReplace price_text "Regular Price" "")))
      else (none, none)
    | none => (none, none)
  let sale_price := extract_int_price? prices.1
  let regular_price := extract_int_price? prices.2
  let color_count := (product.findEl (fun n =>
    n.isTag "p" && n.hasClass "product-tile__color-count")).map Node.getTextStrip
  let attributes_tag := product.findEl (fun n => n.isTag "a" && n.hasClass "link")
  let attributes_json : Option String :=
    attributes_tag.bind (fun t => t.getAttr "data-lulu-attributes")
  match (match attributes_json with
         | some js => if pyTruthy js then jsonParse js else .ok (.obj [])
         | none => .ok (.obj [])) with
  | .error e => .error e
  | .ok attrsJ =>
    match attrsJ.dictGet "product" with
    | .error e => .error e
    | .ok productOpt =>
      match (pyOrEmptyDict productOpt).dictGet "productID" with
      | .error e => .error e
      | .ok pid =>
        let category : Option String :=
          match product_link with
          | some pl => if pyTruthy pl then searchPSeg pl.data else none
          | none => none
        .ok { product_name := product_name, product_link := product_link,
              sale_price := sale_price, regular_price := regular_price,
              color_count := color_count, productID := pid,
              category := category, brand := brand }

/-- The Lululemon batch loop: a tile whose parse raises is skipped, the
rest are processed. -/
def lluOverTiles (base_url brand : String) : List Node → List LLItem
  | [] => []
  | t :: ts =>
    match lluParseTile base_url brand t with
    | .ok it => it :: lluOverTiles base_url brand ts
    | .error _ => lluOverTiles base_url brand ts

/-- `sites.parsers.lululemon_list_parser` (camel-cased name). -/
def lululemonListExtract (raw : Node) (cfg : Config) : List LLItem :=
  let base_url := cfg.base_url.getD "https://shop.lululemon.com"
  let brand := cfg.brand.getD "lululemon"
  let tiles := raw.docEls.filter (fun n => n.isTag "div" && n.hasClass "product-tile")
  if tiles.isEmpty then [] else lluOverTiles base_url brand tiles

/-- BeautifulSoup `.string`: the single text child, looking through
single-child elements. -/
def Node.nodeString : Node → Option String
  | .txt s => some s
  | .el _ _ [c] => c.nodeString
  | .el _ _ _ => none

/-- `sites.parsers._lululemon_extract_json_ld` (camel-cased name):
`None` when the script tag or its string is missing, or on
`json.JSONDecodeError`. -/
def lluExtractJsonLd (soup : Node) : Option PyJson :=
  match soup.docEls.find? (fun n =>
      n.isTag "script" && n.getAttr "type" = some "application/ld+json") with
  | none => none
  | some st =>
    match st.nodeString with
    | none => none
    | some s =>
      if !pyTruthy s then none
      else
        match jsonParse s with
        | .ok j => some j
        | .error _ => none

/-- `sites.parsers._lululemon_extract_colors_from_detail` (camel-cased
name). -/
def lluColors (soup : Node) : Option (List String) :=
  let container : Option Node :=
    match soup.docEls.find? (fun n =>
        n.getAttr "data-testid" = some "button-tile-group_group") with
    | some c => some c
    | none =>
      soup.docEls.find? (fun n => n.getAttr "role" = some "radiogroup" &&
        (match n.getAttr "aria-label" with
         | some v => ariaSelectColor v
         | none => false))
  match container with
  | none => none
  | some c =>
    let tiles0 := c.findAllEls (fun n => n.getAttr "data-testid" = some "button-tile")
    let tiles :=
      if tiles0.isEmpty then c.findAllEls (fun n => n.getAttr "role" = some "radio")
      else tiles0
    if tiles.isEmpty then none
    else
      let colors := tiles.filterMap (fun t =>
        match t.getAttr "aria-label" with
        | some nm => if pyTruthy (pyStrip nm) then some (pyStrip nm) else none
        | none => none)
      if colors.isEmpty then none else some colors

/-- Truthiness of an optional JSON value (`None` is falsy). -/
def pyTruthyJ (o : Option PyJson) : Bool :=
  match o with
  | some j => j.truthy
  | none => false

/-- Python `float(x)` on a JSON-derived value. -/
def pyFloatOfJson : PyJson → Except String Dec
  | .num d => .ok d
  | .str s => pyFloat s
  | .bool b => .ok ⟨if b then 1 else 0, 0⟩
  | _ => .error "float() argument must be a string or a real number"

/-- `sites.parsers._lululemon_extract_sale_price_product_description`
(camel-cased name): the `(list_price, sale_price, product_description)`
triple. -/
def lluSalePriceDesc (html : String) (jsonLd : PyJson) :
    Except String (Option String × Option String × Option String) :=
  match jsonLd.dictGet "sku" with
  | .error e => .error e
  | .ok skuOpt =>
    let skuJ : PyJson :=
      match skuOpt with
      | some j => if j.truthy then j else .str ""
      | none => .str ""
    match skuJ with
    | .str sku =>
      let desc := lluDescScan html.data
      let lpsp : Option (String × String) :=
        if pyTruthy sku then
          match lluIdSegScan sku.data html.data with
          | some seg => lluPrices seg
          | none => none
        else none
      .ok (lpsp.map (fun p => p.1), lpsp.map (fun p => p.2), desc)
    | _ => .error "re.escape expects a string"

/-- The partial record returned by the Lululemon detail extractor
(price values are the Python floats, kept as exact decimals). -/
structure LLDetail where
  product_description : Option String
  sale_price : Option Dec
  regular_price : Option Dec
  image_url : Option PyJson
  rating : Option Dec
  rating_n : Option PyJson
  color_count : Option (List String)
  color_count_number : Option Nat
deriving Repr

/-- The empty Lululemon detail record (Python `{}`). -/
def lluEmpty : LLDetail := ⟨none, none, none, none, none, none, none, none⟩

/-- `float(x) if x else None` on an optional price string (the price
fields of the Lululemon detail return dict). -/
def priceConvE (o : Option String) : Except String (Option Dec) :=
  match o with
  | some sp => if pyTruthy sp then (pyFloat sp).map some else .ok none
  | none => .ok none

/-- The Python `!= "null"` comparison of a JSON value with the string
literal, combined with its truthiness (the guard of the rating
conversion). -/
def ratingCond (rvOpt : Option PyJson) : Bool :=
  pyTruthyJ rvOpt &&
    !(match rvOpt with
      | some (.str s) => s = "null"
      | _ => false)

/-- The body of the Lululemon detail extractor's `try` block.  Each
statement that can raise is sequenced with `Except.bind`, which is
exactly Python's exception propagation to the surrounding `try`. -/
def lluDetailBody (raw : Node) : Except String LLDetail :=
  let html := raw.render
  match lluExtractJsonLd raw with
  | none => .ok lluEmpty
  | some jsonLd =>
    if !jsonLd.truthy then .ok lluEmpty
    else
      (lluSalePriceDesc html jsonLd).bind (fun trip =>
      (jsonLd.dictGet "aggregateRating").bind (fun aggOpt =>
      ((pyOrEmptyDict aggOpt).dictGet "ratingValue").bind (fun rvOpt =>
      (if ratingCond rvOpt then
          (pyFloatOfJson (rvOpt.getD .null)).map some
        else .ok none).bind (fun rating =>
      (jsonLd.dictGet "aggregateRating").bind (fun aggOpt2 =>
      ((pyOrEmptyDict aggOpt2).dictGet "reviewCount").bind (fun rating_n =>
      (jsonLd.dictGet "image").bind (fun image =>
      (priceConvE trip.2.1).bind (fun spD =>
      (priceConvE trip.1).bind (fun lpD =>
        let colors_list := lluColors raw
        .ok { product_description := trip.2.2,
              sale_price := spD, regular_price := lpD,
              image_url := image, rating := rating,
              rating_n := rating_n,
              color_count := colors_list,
              color_count_number :=
                match colors_list with
                | some cl =>
                  if !cl.isEmpty then some cl.length else none
                | none => none })))))))))

/-- `sites.parsers.lululemon_detail_parser` (camel-cased name): the
`try/except Exception` boundary converts any internal failure into the
empty record.  (The `if not raw` guard of the source only fires for a
`None` argument, which a well-typed document never is.) -/
def lululemonDetailExtract (raw : Node) (_cfg : Config) :
    Except String LLDetail :=
  match lluDetailBody raw with
  | .ok r => .ok r
  | .error _ => .ok lluEmpty

/-! ## Miu Miu -/

/-- The partial record returned by the Miu Miu detail extractor
(`attributes` and `color_list` are always set, defaulting to `[]`). -/
structure MmDetail where
  product_name : Option String
  attributes : List String
  color_list : List String
deriving Repr, DecidableEq

/-- `sites.parsers.miumiu_detail_parser` (camel-cased name).  No fallible
operation occurs in its body.  The `re.match(r"Color\s*:?", t)` test is
equivalent to `t.startswith("Color")` since both the whitespace and the
colon of the pattern may match empty. -/
def miumiuDetailExtract (raw : Node) (_cfg : Config) : Except String MmDetail :=
  let product_name : Option String :=
    match (raw.contexts.find? (fun c => c.node.isTag "h1" &&
        c.anc.any (fun a => a.isTag "h3"))).map Ctx.node with
    | some h1 => strToOpt h1.getTextStrip
    | none => none
  let soonDiv : Option Node :=
    (raw.docEls.filter (fun n => n.isTag "div" &&
        (n.hasClass "mt-2" ||
         (match n.getAttr "class" with
          | some cv => pyIn "mt-" cv
          | none => false)))).find? (fun d =>
      pyTruthy d.getTextStrip && pyIn "Soon available online" d.getTextStrip)
  let attrs : List String :=
    match soonDiv with
    | some _ => ["Soon available online"]
    | none => []
  let color_list : List String :=
    match raw.contexts.find? (fun c => c.node.isTag "p" &&
        pyStartsWith c.node.getTextStrip "Color") with
    | some pctx =>
      (match pctx.nextSiblingTag "p" with
       | some next_p =>
         (match next_p.findEl (fun s => s.isTag "span") with
          | some span => if pyTruthy span.getTextStrip then [span.getTextStrip] else []
          | none => [])
       | none => [])
    | none => []
  .ok { product_name := product_name, attributes := attrs,
        color_list := color_list }

/-! ## Prada -/

/-- `sites.parsers._prada_first_url_from_srcset` (camel-cased name). -/
def pradaFirstUrlFromSrcset (srcset : String) : String :=
  if !pyTruthy srcset || !pyTruthy (pyStrip srcset) then ""
  else
    let part := pyStrip ((pySplit (pyStrip srcset) ",").headD "")
    if pyTruthy part then pyStrip ((pySplitWS part).headD "") else ""

/-- The partial record returned by the Prada detail extractor. -/
structure PrDetail where
  image_url : Option String
  color_list : List String
  attributes : List String
deriving Repr, DecidableEq

/-- `sites.parsers.prada_detail_parser` (camel-cased name).  Its only
fallible operation is the guarded `img["src"]` subscript. -/
def pradaDetailExtract (raw : Node) (_cfg : Config) : Except String PrDetail :=
  let picture := raw.docEls.find? (fun n => n.isTag "picture")
  let imageFromSrcset : Option String :=
    match picture with
    | some pic =>
      (pic.descEls.filter (fun t =>
          (t.isTag "source" || t.isTag "img") && (t.getAttr "srcset").isSome)).findSome?
        (fun t =>
          match t.getAttr "srcset" with
          | some s =>
            if pyTruthy s then
              let url := pradaFirstUrlFromSrcset s
              if pyTruthy url && !pyIn "placeholder" url then some url else none
            else none
          | none => none)
    | none => none
  let imgStep : Except String (Option String) :=
    match imageFromSrcset with
    | some u => .ok (some u)
    | none =>
      match picture with
      | some pic =>
        match pic.findEl (fun n => n.isTag "img" && (n.getAttr "src").isSome) with
        | some img =>
          if pyTruthyOpt (img.getAttr "src") &&
              !pyIn "placeholder" (orEmpty (img.getAttr "src")) then
            match img.getAttr "src" with
            | some v => .ok (some v)
            | none => .error "KeyError: src"
          else .ok none
        | none => .ok none
      | none => .ok none
  match imgStep with
  | .error e => .error e
  | .ok image_url =>
    let color_list : List String :=
      match raw.contexts.find? (fun c => c.node.isTag "p" &&
          c.anc.any (fun a => a.isTag "div") &&
          pyStrip c.node.getTextStrip = "Color") with
      | some pctx =>
        (match pctx.nextSiblingTag "p" with
         | some next_p =>
           if pyTruthy next_p.getTextStrip then [next_p.getTextStrip] else []
         | none => [])
      | none => []
    .ok { image_url := image_url, color_list := color_list, attributes := [] }

/-! ## YSL -/

/-- Is there, in the ancestor chain (innermost first), a node satisfying
`p1` that itself lies below a node satisfying `p2` (CSS
`p2 … p1 … self`)? -/
def ancChain2 (anc : List Node) (p1 p2 : Node → Bool) : Bool :=
  match anc with
  | [] => false
  | n :: rest => (p1 n && rest.any p2) || ancChain2 rest p1 p2

/-- The partial record returned by the YSL detail extractor. -/
structure YslDetail where
  sale_price : Option Int
  currency : Option String
  regular_price : Option Int
  color_list : Option (List String)
  color_count : Option Nat
  product_description : Option String
  image_url : Option String
deriving Repr, DecidableEq

/-- `sites.parsers.ysl_detail_parser` (camel-cased name).  Its only
fallible operation is the guarded `img_el["src"]` subscript. -/
def yslDetailExtract (soup : Node) (_cfg : Config) : Except String YslDetail :=
  let price_el := soup.docEls.find? (fun n =>
    n.getAttr "data-qa" = some "pdp-mobile-price-field")
  let sale_price : Option Int :=
    match price_el with
    | some p => extract_int_price p.getTextStrip
    | none => none
  let currency : Option String :=
    match price_el with
    | some p => extract_currency p.getTextStrip
    | none => none
  let color_el : Option Node :=
    match (soup.contexts.find? (fun c => c.node.isTag "p" &&
        c.anc.any (fun a => a.isTag "div" && a.hasClass "sc-15b44914-2"))).map
        Ctx.node with
    | some n => some n
    | none => soup.docEls.find? (fun n => n.isTag "div" && n.hasClass "sc-4868c095-8")
  let colorPair : Option (List String) × Option Nat :=
    match color_el with
    | some ce =>
      let color := ce.getTextStrip
      if pyTruthy color && pyLower color ≠ "other colors" then
        (some [color], some 1)
      else (none, none)
    | none => (none, none)
  let desc_el : Option Node :=
    match (soup.contexts.find? (fun c => c.node.isTag "button" &&
        c.node.hasClass "sc-15b44914-3" &&
        c.anc.any (fun a => a.isTag "div" && a.hasClass "sc-15b44914-0"))).map
        Ctx.node with
    | some n => some n
    | none => soup.docEls.find? (fun n =>
        n.isTag "button" && (n.getAttr "data-imt-p").isSome)
  let product_description : Option String :=
    match desc_el with
    | some d => strToOpt d.getTextStrip
    | none => none
  let img_el : Option Node :=
    match (soup.contexts.find? (fun c => c.node.isTag "img" &&
        ancChain2 c.anc
          (fun b => b.isTag "button" && b.hasClass "sc-53f2741a-3")
          (fun d => d.isTag "div" && d.getAttr "data-theme" = some "ysl"))).map
        Ctx.node with
    | some n => some n
    | none =>
      (soup.contexts.find? (fun c => c.node.isTag "img" &&
        ancChain2 c.anc
          (fun b => b.isTag "button" && b.getAttr "type" = some "button")
          (fun d => d.isTag "div" && d.getAttr "data-theme" = some "ysl"))).map
        Ctx.node
  let base : YslDetail :=
    { sale_price := if price_el.isSome then sale_price else none,
      currency := if price_el.isSome then currency else none,
      regular_price := if price_el.isSome then sale_price else none,
      color_list := colorPair.1, color_count := colorPair.2,
      product_description := product_description, image_url := none }
  match img_el with
  | some img =>
    if pyTruthyOpt (img.getAttr "src") then
      match img.getAttr "src" with
      | some v => .ok { base with image_url := some (pyStrip v) }
      | none => .error "KeyError: src"
    else .ok base
  | none => .ok base

/-! ## The capability registry -/

/-- The concrete capability functions of the module (tagged names for the
registry's dispatch table). -/
inductive FnName where
  | balenciagaList
  | balenciagaDetail
  | chanelList
  | chanelDetail
  | chanelNorm
  | louisvuittonList
  | louisvuittonDetail
  | lululemonList
  | lululemonDetail
  | miumiuList
  | miumiuDetail
  | pradaList
  | pradaDetail
  | yslList
  | yslDetail
  | yslNorm
deriving Repr, DecidableEq

/-- The capability set returned by the registry: the Python keys
`list_parser`, `detail_fetcher`, `detail_parser`, `normalize` (the first
and third renamed for Lean). -/
structure ParserSet where
  list_fn : Option FnName
  detail_fetcher : Option FnName
  detail_fn : Option FnName
  normalize : Option FnName
deriving Repr, DecidableEq

/-- `sites.parsers.get_parsers`: the static dispatch, raising
`ValueError` (modelled as `.error` carrying the message) when the
resolved entry lacks a list extractor — in particular for every
unregistered identifier. -/
def get_parsers (site_id : String) : Except String ParserSet :=
  let base : ParserSet := ⟨none, none, none, none⟩
  let result : ParserSet :=
    if site_id = "balenciaga" then
      { base with list_fn := some .balenciagaList, detail_fn := some .balenciagaDetail }
    else if site_id = "chanel" then
      { base with list_fn := some .chanelList, detail_fn := some .chanelDetail,
                  normalize := some .chanelNorm }
    else if site_id = "louisvuitton" then
      { base with list_fn := some .louisvuittonList, detail_fn := some .louisvuittonDetail }
    else if site_id = "lululemon" then
      { base with list_fn := some .lululemonList, detail_fn := some .lululemonDetail }
    else if site_id = "miumiu" then
      { base with list_fn := some .miumiuList, detail_fn := some .miumiuDetail }
    else if site_id = "prada" then
      { base with list_fn := some .pradaList, detail_fn := some .pradaDetail }
    else if site_id = "ysl" then
      { base with list_fn := some .yslList, detail_fn := some .yslDetail,
                  normalize := some .yslNorm }
    else base
  if result.list_fn = none then
    .error ("site_id=" ++ site_id ++ " must provide list_parser in sites.parsers")
  else .ok result

/-- The registered publisher identifiers. -/
def registeredSites : List String :=
  ["balenciaga", "chanel", "louisvuitton", "lululemon", "miumiu", "prada", "ysl"]

/-! ## Spec-side reference functions (for refinement claims) -/

/-- Fuel-driven helper for `dedupKeepFirst` (structural, so that it
evaluates inside the kernel); `fuel = l.length` suffices. -/
def dedupKeepFirstF : Nat → List String → List String
  | 0, _ => []
  | _ + 1, [] => []
  | f + 1, x :: xs => x :: dedupKeepFirstF f (xs.filter (· ≠ x))

/-- First-occurrence de-duplication, as worded by the spec ("dedup key =
normalized link string; first occurrence wins"). -/
def dedupKeepFirst (l : List String) : List String :=
  dedupKeepFirstF l.length l

/-- The claim's reading of "the path segment following `/p/` in the URL":
the non-empty run of non-slash characters after the first `/p/`,
terminated by a slash or by the end of the URL. -/
def specSegAfterP : List Char → Option String
  | [] => none
  | l@(_ :: cs) =>
    if startsWithL l "/p/".data then
      let seg := (l.drop 3).takeWhile (· ≠ '/')
      if seg.isEmpty then specSegAfterP cs else some (String.mk seg)
    else specSegAfterP cs

/-- The Chanel literal-URL-list behaviour as the claim words it, over the
stripped non-blank first occurrences. -/
def chanelUrlsSpec (brand : String) (urls : List String) : List ChItem :=
  (dedupKeepFirst ((urls.map pyStrip).filter (· ≠ ""))).map
    (fun u => { product_link := u,
                product_id := _chanel_extract_product_id_from_url u,
                product_name := "", brand := brand })

/-! ## Concrete documents and configurations used as witnesses -/

/-- A Balenciaga listing fragment whose price microdata carries a
negative float `content` attribute. -/
def cexDoc : Node :=
  .el "[document]" [] [
    .el "div" [] [
      .el "a" [("href", "/bag.html")] [.txt "Bag"],
      .el "span" [("itemprop", "price"), ("content", "-5.5")] [.txt "RM 5"]]]

/-- The Balenciaga configuration used with `cexDoc`. -/
def cexCfg : Config := ⟨some "https://www.balenciaga.com", some "balenciaga", none⟩

/-- A fixed record used to exercise the non-empty generic branch. -/
def bRec0 : BRec :=
  ⟨"x", "https://www.balenciaga.com/x.html", none, none, none, "balenciaga",
   none, none⟩

/-! ## Helper lemmas about the fallback de-duplication -/

theorem startsWithL_self_append (p b : List Char) :
    startsWithL (p ++ b) p = true := by
  induction p with
  | nil => simp [startsWithL]
  | cons c cs ih => simp [startsWithL, ih]

theorem containsL_of_startsWith (l p : List Char) (h : startsWithL l p = true) :
    containsL l p = true := by
  cases l with
  | nil => simpa [containsL] using h
  | cons c cs => simp [containsL, h]

theorem containsL_append (a p b : List Char) :
    containsL (a ++ (p ++ b)) p = true := by
  induction a with
  | nil => exact containsL_of_startsWith _ _ (startsWithL_self_append p b)
  | cons c cs ih => simp [containsL, ih]

theorem bDedup_sublist : ∀ (l : List BRec) (seen : List String),
    (bDedup seen l).Sublist l := by
  intro l
  induction l with
  | nil => intro seen; simp [bDedup]
  | cons it rest ih =>
    intro seen
    simp only [bDedup]
    split
    · exact (ih _).cons₂ it
    · exact (ih _).cons it

theorem bDedup_mem : ∀ (l : List BRec) (seen : List String) (r : BRec),
    r ∈ bDedup seen l → r.product_link ≠ "" ∧ r.product_link ∉ seen := by
  intro l
  induction l with
  | nil => intro seen r hr; simp [bDedup] at hr
  | cons it rest ih =>
    intro seen r hr
    simp only [bDedup] at hr
    split at hr
    · rename_i hcond
      rcases List.mem_cons.mp hr with h1 | h1
      · subst h1; exact hcond
      · have h2 := ih _ _ h1
        exact ⟨h2.1, fun hmem => h2.2 (List.mem_cons_of_mem _ hmem)⟩
    · exact ih _ _ hr

theorem bDedup_links_nodup : ∀ (l : List BRec) (seen : List String),
    ((bDedup seen l).map (fun r => r.product_link)).Nodup := by
  intro l
  induction l with
  | nil => intro seen; simp [bDedup]
  | cons it rest ih =>
    intro seen
    simp only [bDedup]
    split
    · rename_i hcond
      simp only [List.map_cons, List.nodup_cons]
      constructor
      · intro hmem
        rcases List.mem_map.mp hmem with ⟨r, hr, hl⟩
        have := (bDedup_mem _ _ _ hr).2
        exact this (by simp [hl])
      · exact ih _
    · exact ih _

theorem bDedup_first_wins : ∀ (l : List BRec) (seen : List String) (r : BRec),
    r ∈ bDedup seen l →
    ∃ l1 l2, l = l1 ++ r :: l2 ∧
      ∀ x ∈ l1, x.product_link = r.product_link → x.product_link ∈ seen := by
  intro l
  induction l with
  | nil => intro seen r hr; simp [bDedup] at hr
  | cons it rest ih =>
    intro seen r hr
    simp only [bDedup] at hr
    split at hr
    · rename_i hcond
      rcases List.mem_cons.mp hr with h1 | h1
      · subst h1
        exact ⟨[], rest, rfl, by simp⟩
      · rcases ih _ _ h1 with ⟨l1, l2, hsplit, hfw⟩
        have hrlink := (bDedup_mem _ _ _ h1).2
        refine ⟨it :: l1, l2, by simp [hsplit], ?_⟩
        intro x hx hxl
        rcases List.mem_cons.mp hx with h2 | h2
        · subst h2
          exact absurd (hxl ▸ List.mem_cons_self _ _) hrlink
        · have := hfw x h2 hxl
          rcases List.mem_cons.mp this with h3 | h3
          · exfalso
            apply hrlink
            rw [← hxl, h3]
            exact List.mem_cons_self _ _
          · exact h3
    · rename_i hcond
      rcases ih _ _ hr with ⟨l1, l2, hsplit, hfw⟩
      have hrtr := (bDedup_mem _ _ _ hr).1
      refine ⟨it :: l1, l2, by simp [hsplit], ?_⟩
      intro x hx hxl
      rcases List.mem_cons.mp hx with h2 | h2
      · subst h2
        by_contra hnot
        exact hcond ⟨hxl ▸ hrtr, hnot⟩
      · exact hfw x h2 hxl

/-! ## Claims -/

theorem bAnchorItem_regular_eq_sale (b br : String) (a : Node) (anc : List Node)
    (r : BRec) (h : bAnchorItem b br a anc = some r) :
    r.regular_price = r.sale_price := by
  unfold bAnchorItem at h
  dsimp only at h
  repeat' split at h
  all_goals injection h
  all_goals rename_i h
  all_goals subst h
  all_goals rfl

theorem bItems_regular_eq_sale (doc : Node) (cfg : Config) :
    ∀ r ∈ bItems doc cfg, r.regular_price = r.sale_price := by
  intro r hr
  unfold bItems at hr
  rcases List.mem_filterMap.mp hr with ⟨p, _, hp⟩
  exact bAnchorItem_regular_eq_sale _ _ _ _ _ hp

/-- C10: every record emitted by the Balenciaga fallback has
`regular_price` equal to `sale_price` (both fields are set from the same
`sale_price` variable), so `regular_price` is `None` exactly when
`sale_price` is, and no fallback record can represent a discount where
the two prices differ. -/
theorem balenciagaFallback_regular_eq_sale (doc : Node) (cfg : Config) (r : BRec)
    (h : r ∈ balenciagaParseByProductLinks doc cfg) :
    r.regular_price = r.sale_price ∧
      (r.regular_price = none ↔ r.sale_price = none) := by
  have hr : r ∈ bItems doc cfg :=
    (bDedup_sublist (bItems doc cfg) []).subset h
  have heq := bItems_regular_eq_sale doc cfg r hr
  exact ⟨heq, by rw [heq]⟩

/-- Witness for C10 at a concrete document. -/
theorem balenciagaFallback_regular_eq_sale_witness :
    (⟨"Bag", "https://www.balenciaga.com/bag.html", some (-5), some (-5),
       some "MYR", "balenciaga", none, none⟩ : BRec) ∈
        balenciagaParseByProductLinks cexDoc cexCfg ∧
    (⟨"Bag", "https://www.balenciaga.com/bag.html", some (-5), some (-5),
       some "MYR", "balenciaga", none, none⟩ : BRec).regular_price =
      (⟨"Bag", "https://www.balenciaga.com/bag.html", some (-5), some (-5),
       some "MYR", "balenciaga", none, none⟩ : BRec).sale_price := by
  refine ⟨by decide, ?_⟩
  exact (balenciagaFallback_regular_eq_sale cexDoc cexCfg _ (by decide)).1

/-- C4: the Balenciaga fallback is invoked exactly when the Generic
Extractor returns zero items; a non-empty generic result is returned
unchanged. -/
theorem balenciagaFallback_iff_generic_empty
    (generic : Node → Config → List BRec) (raw : Node) (cfg : Config) :
    (generic raw cfg = [] →
      balenciagaListExtract generic raw cfg =
        balenciagaParseByProductLinks raw cfg) ∧
    (generic raw cfg ≠ [] →
      balenciagaListExtract generic raw cfg = generic raw cfg) := by
  unfold balenciagaListExtract
  constructor
  · intro h
    simp [h]
  · intro h
    simp [List.isEmpty_eq_false_iff_exists_mem.mpr
      (List.exists_mem_of_ne_nil _ h)]

/-- Witness for C4 at concrete inputs. -/
theorem balenciagaFallback_iff_generic_empty_witness :
    balenciagaListExtract (fun _ _ => []) cexDoc cexCfg =
      balenciagaParseByProductLinks cexDoc cexCfg ∧
    balenciagaListExtract (fun _ _ => [bRec0]) cexDoc cexCfg = [bRec0] := by
  constructor
  · exact (balenciagaFallback_iff_generic_empty (fun _ _ => []) cexDoc cexCfg).1 rfl
  · exact (balenciagaFallback_iff_generic_empty (fun _ _ => [bRec0]) cexDoc cexCfg).2
      (by simp)

theorem pyIn_middle (a p b : String) : pyIn p (a ++ p ++ b) = true := by
  unfold pyIn
  have : (a ++ p ++ b).data = a.data ++ (p.data ++ b.data) := by
    simp [String.data_append, List.append_assoc]
  rw [this]
  exact containsL_append a.data p.data b.data

/-- C5: resolving an identifier outside the registered closed set fails
with a configuration error whose message contains the identifier; every
registered identifier resolves to a capability set with a list extractor,
with no publisher registering a detail fetch hook, every publisher
registering a detail extractor, and a normalize override registered
exactly by Chanel and YSL. -/
theorem get_parsers_contract (site_id : String) :
    (site_id ∉ registeredSites →
      ∃ msg, get_parsers site_id = .error msg ∧ pyIn site_id msg = true) ∧
    (site_id ∈ registeredSites →
      ∃ ps, get_parsers site_id = .ok ps ∧ ps.list_fn ≠ none ∧
        ps.detail_fn ≠ none ∧ ps.detail_fetcher = none ∧
        (ps.normalize ≠ none ↔ site_id = "chanel" ∨ site_id = "ysl")) := by
  constructor
  · intro hmem
    simp only [registeredSites, List.mem_cons, List.mem_singleton, not_or] at hmem
    obtain ⟨h1, h2, h3, h4, h5, h6, h7⟩ := hmem
    refine ⟨"site_id=" ++ site_id ++ " must provide list_parser in sites.parsers",
      ?_, ?_⟩
    · unfold get_parsers
      simp [h1, h2, h3, h4, h5, h6, h7]
    · exact pyIn_middle "site_id=" site_id " must provide list_parser in sites.parsers"
  · intro hmem
    simp only [registeredSites, List.mem_cons, List.not_mem_nil, or_false] at hmem
    rcases hmem with h | h | h | h | h | h | h <;> subst h
    · exact ⟨⟨some .balenciagaList, none, some .balenciagaDetail, none⟩,
        by simp [get_parsers], by decide, by decide, rfl, by decide⟩
    · exact ⟨⟨some .chanelList, none, some .chanelDetail, some .chanelNorm⟩,
        by simp [get_parsers], by decide, by decide, rfl, by decide⟩
    · exact ⟨⟨some .louisvuittonList, none, some .louisvuittonDetail, none⟩,
        by simp [get_parsers], by decide, by decide, rfl, by decide⟩
    · exact ⟨⟨some .lululemonList, none, some .lululemonDetail, none⟩,
        by simp [get_parsers], by decide, by decide, rfl, by decide⟩
    · exact ⟨⟨some .miumiuList, none, some .miumiuDetail, none⟩,
        by simp [get_parsers], by decide, by decide, rfl, by decide⟩
    · exact ⟨⟨some .pradaList, none, some .pradaDetail, none⟩,
        by simp [get_parsers], by decide, by decide, rfl, by decide⟩
    · exact ⟨⟨some .yslList, none, some .yslDetail, some .yslNorm⟩,
        by simp [get_parsers], by decide, by decide, rfl, by decide⟩

/-- Witness for C5: an unregistered identifier and a registered one. -/
theorem get_parsers_contract_witness :
    (∃ msg, get_parsers "acme" = .error msg ∧ pyIn "acme" msg = true) ∧
    (∃ ps, get_parsers "chanel" = .ok ps ∧ ps.list_fn ≠ none ∧
      ps.detail_fn ≠ none ∧ ps.detail_fetcher = none ∧
      (ps.normalize ≠ none ↔ "chanel" = "chanel" ∨ "chanel" = "ysl")) := by
  constructor
  · exact (get_parsers_contract "acme").1 (by decide)
  · exact (get_parsers_contract "chanel").2 (by decide)

/-- C6: the Chanel and YSL normalize overrides are idempotent — applying
either to its own output returns the same record (with the missing
`default_normalize` modelled from the spec as the identity field-mapping
on canonical records). -/
theorem normalize_idempotent (item : NRec) :
    chanel_normalize (chanel_normalize item) = chanel_normalize item ∧
    ysl_normalize (ysl_normalize item) = ysl_normalize item := by
  constructor
  · unfold chanel_normalize default_normalize
    dsimp only
    split_ifs <;> simp_all
  · unfold ysl_normalize default_normalize
    dsimp only
    split_ifs <;> simp_all [pyTruthyOpt, pyTruthy, orEmpty]

theorem dedupKeepFirstF_fuel :
    ∀ (f : Nat) (l : List String), l.length ≤ f →
      dedupKeepFirstF f l = dedupKeepFirstF l.length l := by
  intro f
  induction f using Nat.strong_induction_on with
  | _ f ih =>
    intro l hl
    match f, l with
    | 0, [] => rfl
    | 0, x :: xs => simp at hl
    | g + 1, [] => rfl
    | g + 1, x :: xs =>
      simp only [dedupKeepFirstF, List.length_cons]
      have hle : (xs.filter (· ≠ x)).length ≤ g := by
        exact le_trans (List.length_filter_le _ _) (Nat.lt_succ_iff.mp hl)
      rw [ih g (Nat.lt_succ_self g) _ hle,
        ih xs.length (Nat.lt_succ_of_le (Nat.lt_succ_iff.mp hl)) _
          (List.length_filter_le _ _)]

theorem dedupKeepFirst_cons (x : String) (xs : List String) :
    dedupKeepFirst (x :: xs) = x :: dedupKeepFirst (xs.filter (· ≠ x)) := by
  unfold dedupKeepFirst
  simp only [List.length_cons, dedupKeepFirstF]
  rw [dedupKeepFirstF_fuel xs.length _ (List.length_filter_le _ _)]

theorem chanelFromUrls_spec (brand : String) :
    ∀ (urls : List String) (seen : List String),
      chanelFromUrls brand seen urls =
        (dedupKeepFirst ((((urls.map pyStrip).filter (· ≠ "")).filter
          (fun u => decide (u ∉ seen))))).map
          (fun u => { product_link := u,
                      product_id := _chanel_extract_product_id_from_url u,
                      product_name := "", brand := brand }) := by
  intro urls
  induction urls with
  | nil => intro seen; simp [chanelFromUrls, dedupKeepFirst, dedupKeepFirstF]
  | cons u rest ih =>
    intro seen
    simp only [chanelFromUrls, List.map_cons]
    by_cases h0 : pyStrip u = ""
    · rw [if_pos (Or.inl h0), List.filter_cons_of_neg (by simp [h0])]
      exact ih seen
    · by_cases h1 : pyStrip u ∈ seen
      · rw [if_pos (Or.inr h1), List.filter_cons_of_pos (by simp [h0]),
          List.filter_cons_of_neg (by simp [h1])]
        exact ih seen
      · rw [if_neg (by simp [h0, h1]), List.filter_cons_of_pos (by simp [h0]),
          List.filter_cons_of_pos (by simp [h1])]
        rw [dedupKeepFirst_cons]
        simp only [List.map_cons, List.cons.injEq, true_and]
        rw [ih (pyStrip u :: seen)]
        congr 2
        rw [List.filter_filter, List.filter_filter, List.filter_filter]
        apply List.filter_congr
        intro x _
        simp [List.mem_cons, not_or, Bool.and_assoc, and_comm]

/-- An empty document (the Chanel URL-list branch never reads it). -/
def c7doc : Node := .el "[document]" [] []

/-- A configuration supplying one literal product URL, padded with
whitespace and without a slash after the `/p/X` segment. -/
def c7cfg : Config := ⟨none, none, some ⟨some [" https://www.chanel.com/p/X "]⟩⟩

/-- C7 counterexample: with the URL `" https://www.chanel.com/p/X "`,
the emitted record's `product_id` is `none` although `X` is the path
segment following `/p/` (the source regex also demands a terminating
slash), and the record's link is the stripped URL, not the supplied
entry. -/
theorem chanelUrlList_counterexample :
    chanelListExtract (fun _ _ => []) c7doc c7cfg =
      [{ product_link := "https://www.chanel.com/p/X", product_id := none,
         product_name := "", brand := "chanel" }] ∧
    specSegAfterP "https://www.chanel.com/p/X".data = some "X" ∧
    " https://www.chanel.com/p/X " ≠ "https://www.chanel.com/p/X" := by
  refine ⟨by decide, by decide, by decide⟩

/-- C7 (amended): when the configuration supplies a non-empty literal
URL list, the Chanel list extractor returns, for each URL non-blank
after stripping and not seen earlier (after stripping), a minimal record
whose link is the stripped URL, whose product id is the `/p/` path
segment only when a further slash terminates it, and whose name is
empty; blank and duplicate URLs produce no record. -/
theorem chanelUrlList_spec (generic : Node → Config → List ChItem)
    (raw : Node) (cfg : Config) (urls : List String)
    (h : cfg.list.bind (fun lc => lc.product_urls) = some urls)
    (hne : urls ≠ []) :
    chanelListExtract generic raw cfg =
      chanelUrlsSpec (cfg.brand.getD "chanel") urls := by
  unfold chanelListExtract
  rw [h]
  simp only [hne, List.isEmpty_eq_false_iff_exists_mem.mpr
    (List.exists_mem_of_ne_nil _ hne)]
  rw [if_pos (by simp)]
  rw [chanelFromUrls_spec]
  unfold chanelUrlsSpec
  congr 1
  congr 1
  simp

/-- Witness for the amended C7 at a concrete URL list with a blank and a
duplicate entry. -/
theorem chanelUrlList_spec_witness :
    chanelListExtract (fun _ _ => []) c7doc
        ⟨none, none, some ⟨some ["https://a/p/q/", "", "https://a/p/q/"]⟩⟩ =
      chanelUrlsSpec "chanel" ["https://a/p/q/", "", "https://a/p/q/"] ∧
    chanelUrlsSpec "chanel" ["https://a/p/q/", "", "https://a/p/q/"] =
      [{ product_link := "https://a/p/q/", product_id := some "q",
         product_name := "", brand := "chanel" }] := by
  constructor
  · exact chanelUrlList_spec (fun _ _ => []) c7doc _ _ rfl (by decide)
  · decide

/-- A Lululemon listing with one product tile that has no `a.link`. -/
def c3doc : Node :=
  .el "[document]" [] [
    .el "div" [("class", "product-tile")] [
      .el "h3" [("class", "product-tile__product-name")] [.txt "A"]]]

/-- One Lululemon product tile carrying a link. -/
def c3tile : Node :=
  .el "div" [("class", "product-tile")] [
    .el "a" [("class", "link"), ("href", "/p/x/a1")] [.txt "x"]]

/-- A Lululemon listing repeating the same tile (the same link twice). -/
def c3dup : Node := .el "[document]" [] [c3tile, c3tile]

/-- C3 counterexample: the Lululemon list extractor emits a record whose
`product_link` is absent (tile without an `a.link`), and emits two
records with the same link for a document repeating one tile — so the
link-non-emptiness/deduplication guarantee does not hold for every
publisher's list extraction. -/
theorem listLink_counterexample :
    (lululemonListExtract c3doc ⟨none, none, none⟩).map
        (fun r => r.product_link) = [none] ∧
    (lululemonListExtract c3dup ⟨none, none, none⟩).map
        (fun r => r.product_link) =
      [some "https://shop.lululemon.com/p/x/a1",
       some "https://shop.lululemon.com/p/x/a1"] := by
  refine ⟨by decide, by decide⟩

/-- C3 (amended): every record emitted by the Balenciaga fallback has a
non-empty `product_link`, no two emitted records share a link, the
output is a sublist of the collected per-anchor items (so output order
matches first-occurrence document order), and each emitted record is the
first collected item carrying its link.  (The Lululemon list extractor
gives no such guarantee: it neither de-duplicates nor requires a link.) -/
theorem balenciagaFallback_dedup (doc : Node) (cfg : Config) :
    (∀ r ∈ balenciagaParseByProductLinks doc cfg, r.product_link ≠ "") ∧
    ((balenciagaParseByProductLinks doc cfg).map
      (fun r => r.product_link)).Nodup ∧
    (balenciagaParseByProductLinks doc cfg).Sublist (bItems doc cfg) ∧
    (∀ r ∈ balenciagaParseByProductLinks doc cfg,
      ∃ l1 l2, bItems doc cfg = l1 ++ r :: l2 ∧
        ∀ x ∈ l1, x.product_link ≠ r.product_link) := by
  refine ⟨?_, bDedup_links_nodup _ _, bDedup_sublist _ _, ?_⟩
  · intro r hr
    exact (bDedup_mem _ _ _ hr).1
  · intro r hr
    rcases bDedup_first_wins _ _ _ hr with ⟨l1, l2, hs, hfw⟩
    exact ⟨l1, l2, hs, fun x hx heq => absurd (hfw x hx heq) (List.not_mem_nil _)⟩

/-- Witness for the amended C3 at a concrete document. -/
theorem balenciagaFallback_dedup_witness :
    (⟨"Bag", "https://www.balenciaga.com/bag.html", some (-5), some (-5),
       some "MYR", "balenciaga", none, none⟩ : BRec).product_link ≠ "" ∧
    ((balenciagaParseByProductLinks cexDoc cexCfg).map
      (fun r => r.product_link)).Nodup := by
  constructor
  · exact (balenciagaFallback_dedup cexDoc cexCfg).1 _ (by decide)
  · exact (balenciagaFallback_dedup cexDoc cexCfg).2.1

/-- A product tile whose `data-lulu-attributes` payload is malformed
JSON: its per-item parse raises inside the loop body. -/
def badTile : Node :=
  .el "div" [("class", "product-tile")] [
    .el "a" [("class", "link"), ("href", "/p/x/a"),
             ("data-lulu-attributes", "\x7bbad")] [.txt "B"]]

/-- A well-formed product tile. -/
def goodTile : Node :=
  .el "div" [("class", "product-tile")] [
    .el "h3" [("class", "product-tile__product-name")] [.txt "Align"],
    .el "a" [("class", "link"), ("href", "/p/yoga/a1"),
             ("data-lulu-attributes",
              "\x7b\"product\":\x7b\"productID\":\"prod123\"\x7d\x7d")] [.txt "x"],
    .el "span" [("class", "price")] [.txt "Sale Price $59 Regular Price $118"]]

theorem lluOverTiles_append (b br : String) (xs ys : List Node) :
    lluOverTiles b br (xs ++ ys) =
      lluOverTiles b br xs ++ lluOverTiles b br ys := by
  induction xs with
  | nil => simp [lluOverTiles]
  | cons t ts ih =>
    simp only [List.cons_append, lluOverTiles]
    split <;> simp [ih]

/-- C9: during Lululemon batch list extraction, a tile whose per-item
parse raises is skipped and the remaining tiles are still processed —
the batch over `pre ++ bad :: post` equals the batch over `pre ++ post`
and never aborts (`lululemonListExtract` runs `lluOverTiles` over the
tiles of the document). -/
theorem lluBatch_skips_bad_item (b br : String) (pre post : List Node)
    (bad : Node) (h : (lluParseTile b br bad).isOk = false) :
    lluOverTiles b br (pre ++ bad :: post) =
      lluOverTiles b br pre ++ lluOverTiles b br post ∧
    lluOverTiles b br (pre ++ bad :: post) =
      lluOverTiles b br (pre ++ post) := by
  have hbad : lluOverTiles b br (bad :: post) = lluOverTiles b br post := by
    cases he : lluParseTile b br bad with
    | ok r => rw [he] at h; simp [Except.isOk, Except.toBool] at h
    | error e => simp only [lluOverTiles]; rw [he]
  constructor
  · rw [lluOverTiles_append, hbad]
  · rw [lluOverTiles_append, hbad, lluOverTiles_append]

/-- Witness for C9: a malformed tile between two well-formed ones is
skipped and the others survive. -/
theorem lluBatch_skips_bad_item_witness :
    lluOverTiles "https://shop.lululemon.com" "lululemon"
        [goodTile, badTile, goodTile] =
      lluOverTiles "https://shop.lululemon.com" "lululemon"
        [goodTile, goodTile] := by
  exact (lluBatch_skips_bad_item "https://shop.lululemon.com" "lululemon"
    [goodTile] [goodTile] badTile (by decide)).2

theorem pyTruthyOpt_isSome (o : Option String) (h : pyTruthyOpt o = true) :
    ∃ v, o = some v ∧ v ≠ "" := by
  cases o with
  | none => simp [pyTruthyOpt] at h
  | some v => exact ⟨v, rfl, by simpa [pyTruthyOpt, pyTruthy] using h⟩

theorem chanelDetail_isOk (raw : Node) (cfg : Config) :
    (chanelDetailExtract raw cfg).isOk = true := by
  unfold chanelDetailExtract
  dsimp only
  split
  · split
    · split
      · rfl
      · rename_i hc _ hnone
        rw [hnone] at hc
        simp [pyTruthyOpt] at hc
    · rfl
  · rfl

theorem pradaDetail_isOk (raw : Node) (cfg : Config) :
    (pradaDetailExtract raw cfg).isOk = true := by
  unfold pradaDetailExtract
  dsimp only
  split
  · rename_i e herr
    exfalso
    revert herr
    split
    · simp
    · split
      · split
        · split
          · rename_i hcond
            rw [Bool.and_eq_true] at hcond
            obtain ⟨v, hv, -⟩ := pyTruthyOpt_isSome _ hcond.1
            rw [hv]
            simp
          · simp
        · simp
      · simp
  · rfl

theorem yslDetail_isOk (raw : Node) (cfg : Config) :
    (yslDetailExtract raw cfg).isOk = true := by
  unfold yslDetailExtract
  dsimp only
  split
  · split
    · split
      · rfl
      · rename_i hc _ hnone
        rw [hnone] at hc
        simp [pyTruthyOpt] at hc
    · rfl
  · rfl

theorem lluDetail_isOk (raw : Node) (cfg : Config) :
    (lululemonDetailExtract raw cfg).isOk = true := by
  unfold lululemonDetailExtract
  cases lluDetailBody raw <;> rfl

/-- C2: for every well-typed parsed document and configuration, none of
the seven publishers' detail extractors lets an exception past its
boundary: each genuinely fallible operation (`float(...)`,
`json.loads`, a dict subscript) is either locally caught, guarded, or
absorbed by the extractor-level `try/except`, so every extractor returns
a partial record. -/
theorem detailExtractors_total (raw : Node) (cfg : Config) :
    (balenciagaDetailExtract raw cfg).isOk = true ∧
    (chanelDetailExtract raw cfg).isOk = true ∧
    (louisvuittonDetailExtract raw cfg).isOk = true ∧
    (lululemonDetailExtract raw cfg).isOk = true ∧
    (miumiuDetailExtract raw cfg).isOk = true ∧
    (pradaDetailExtract raw cfg).isOk = true ∧
    (yslDetailExtract raw cfg).isOk = true :=
  ⟨rfl, chanelDetail_isOk raw cfg, rfl, lluDetail_isOk raw cfg, rfl,
   pradaDetail_isOk raw cfg, yslDetail_isOk raw cfg⟩

theorem extract_int_price_nonneg (s : String) (n : Int)
    (h : extract_int_price s = some n) : 0 ≤ n := by
  unfold extract_int_price at h
  split at h
  · exact absurd h (by simp)
  · injection h with h
    rw [← h]
    exact Int.natCast_nonneg _

theorem trimChars_subset (l : List Char) (c : Char) (h : c ∈ trimChars l) :
    c ∈ l := by
  unfold trimChars at h
  rw [List.mem_reverse] at h
  have h1 := (List.dropWhile_sublist (l := (l.dropWhile isWS).reverse) isWS).mem h
  rw [List.mem_reverse] at h1
  exact (List.dropWhile_sublist (l := l) isWS).mem h1

theorem parseUnsignedDec_nonneg (l : List Char) (d : Dec)
    (h : parseUnsignedDec l = some d) : 0 ≤ d.mant := by
  unfold parseUnsignedDec at h
  dsimp only at h
  split at h
  · split at h
    · exact absurd h (by simp)
    · injection h with h
      rw [← h]
      exact Int.natCast_nonneg _
  · split at h
    · exact absurd h (by simp)
    · split at h
      · exact absurd h (by simp)
      · injection h with h
        rw [← h]
        exact Int.natCast_nonneg _
  · exact absurd h (by simp)

theorem pyFloat_nonneg_of_no_minus (s : String) (d : Dec)
    (hm : '-' ∉ s.data) (h : pyFloat s = .ok d) : 0 ≤ d.mant := by
  unfold pyFloat at h
  split at h
  · rename_i rest heq
    exact absurd (trimChars_subset s.data '-' (heq ▸ List.mem_cons_self _ _)) hm
  · rename_i rest heq
    split at h
    · rename_i d' hd
      injection h with h
      rw [← h]
      exact parseUnsignedDec_nonneg _ _ hd
    · exact absurd h (by simp)
  · rename_i heq h1 h2
    split at h
    · rename_i d' hd
      injection h with h
      rw [← h]
      exact parseUnsignedDec_nonneg _ _ hd
    · exact absurd h (by simp)

theorem numCap_no_minus (l : List Char) (s : String) (r : List Char)
    (h : numCap l = some (s, r)) : '-' ∉ s.data := by
  unfold numCap at h
  dsimp only at h
  split at h
  · exact absurd h (by simp)
  · split at h
    · injection h with h
      injection h with h1 h2
      rw [← h1]
      intro hmem
      have hmem' : '-' ∈ l.takeWhile (fun c => c.isDigit || c = '.') := hmem
      have hp := List.mem_takeWhile_imp hmem'
      simp at hp
    · exact absurd h (by simp)

theorem priceCapScan_no_minus (key : List Char) :
    ∀ (l : List Char) (s : String) (r : List Char),
      priceCapScan key l = some (s, r) → '-' ∉ s.data := by
  intro l
  induction l with
  | nil => intro s r h; simp [priceCapScan] at h
  | cons c cs ih =>
    intro s r h
    simp only [priceCapScan] at h
    split at h
    · split at h
      · rename_i p hp
        rcases p with ⟨s', r'⟩
        injection h with h
        injection h with h1 h2
        rw [← h1]
        exact numCap_no_minus _ _ _ hp
      · exact ih _ _ h
    · exact ih _ _ h

theorem lluPrices_no_minus (seg : List Char) (lp sp : String)
    (h : lluPrices seg = some (lp, sp)) : '-' ∉ lp.data ∧ '-' ∉ sp.data := by
  unfold lluPrices at h
  cases hp : priceCapScan ("\"list-price\":\"".data) seg with
  | none => rw [hp] at h; simp at h
  | some p =>
    rw [hp] at h
    rcases p with ⟨lp', rest⟩
    dsimp only at h
    cases hq : priceCapScan ("\"sale-price\":\"".data) rest with
    | none => rw [hq] at h; simp at h
    | some q =>
      rw [hq] at h
      rcases q with ⟨sp', rest'⟩
      dsimp only at h
      injection h with h
      injection h with h1 h2
      rw [← h1, ← h2]
      exact ⟨priceCapScan_no_minus _ _ _ _ hp, priceCapScan_no_minus _ _ _ _ hq⟩

theorem lluSalePriceDesc_no_minus (html : String) (j : PyJson)
    (lp sp de : Option String)
    (h : lluSalePriceDesc html j = .ok (lp, sp, de)) :
    (∀ s, lp = some s → '-' ∉ s.data) ∧ (∀ s, sp = some s → '-' ∉ s.data) := by
  unfold lluSalePriceDesc at h
  split at h
  · exact absurd h (by simp)
  · dsimp only at h
    split at h
    · rename_i sku hsku
      have key : ∀ l0 s0,
          (if pyTruthy sku = true then
            (match lluIdSegScan sku.data html.data with
             | some seg => lluPrices seg
             | none => none)
           else none) = some (l0, s0) →
          '-' ∉ l0.data ∧ '-' ∉ s0.data := by
        intro l0 s0 hE
        split at hE
        · split at hE
          · exact lluPrices_no_minus _ _ _ hE
          · exact absurd hE (by simp)
        · exact absurd hE (by simp)
      injection h with h
      injection h with h1 h23
      injection h23 with h2 h3
      constructor
      · intro s hs
        rw [← h1] at hs
        rcases Option.map_eq_some'.mp hs with ⟨⟨l0, s0⟩, hE, hval⟩
        rw [← hval]
        exact (key l0 s0 hE).1
      · intro s hs
        rw [← h2] at hs
        rcases Option.map_eq_some'.mp hs with ⟨⟨l0, s0⟩, hE, hval⟩
        rw [← hval]
        exact (key l0 s0 hE).2
    all_goals exact absurd h (by simp)

theorem lluEmpty_price_nonneg :
    (∀ d, lluEmpty.sale_price = some d → 0 ≤ d.mant) ∧
    (∀ d, lluEmpty.regular_price = some d → 0 ≤ d.mant) := by
  constructor <;> intro d hd <;> simp [lluEmpty] at hd

theorem priceConv_nonneg (price : Option String) (out : Option Dec)
    (hnm : ∀ s, price = some s → '-' ∉ s.data)
    (hconv : priceConvE price = .ok out) :
    ∀ d, out = some d → 0 ≤ d.mant := by
  intro d hd
  unfold priceConvE at hconv
  cases price with
  | none =>
    dsimp only at hconv
    injection hconv with hconv
    rw [← hconv] at hd
    simp at hd
  | some sp =>
    dsimp only at hconv
    split at hconv
    · cases hpf : pyFloat sp with
      | error e => rw [hpf] at hconv; simp [Except.map] at hconv
      | ok dd =>
        rw [hpf] at hconv
        dsimp only [Except.map] at hconv
        injection hconv with hconv
        rw [← hconv] at hd
        injection hd with hd
        rw [← hd]
        exact pyFloat_nonneg_of_no_minus sp dd (hnm sp rfl) hpf
    · injection hconv with hconv
      rw [← hconv] at hd
      simp at hd

theorem exceptBind_ok {γ α β : Type} (x : Except γ α) (f : α → Except γ β)
    (r : β) (h : x.bind f = .ok r) : ∃ y, x = .ok y ∧ f y = .ok r := by
  cases x with
  | error e => simp [Except.bind] at h
  | ok y => exact ⟨y, rfl, by simpa [Except.bind] using h⟩

theorem lluDetailBody_price_nonneg (raw : Node) (r : LLDetail)
    (h : lluDetailBody raw = .ok r) :
    (∀ d, r.sale_price = some d → 0 ≤ d.mant) ∧
    (∀ d, r.regular_price = some d → 0 ≤ d.mant) := by
  unfold lluDetailBody at h
  split at h
  · injection h with h
    rw [← h]
    exact lluEmpty_price_nonneg
  · rename_i jsonLd hjl
    split at h
    · injection h with h
      rw [← h]
      exact lluEmpty_price_nonneg
    · obtain ⟨trip, hdesc, h⟩ := exceptBind_ok _ _ _ h
      obtain ⟨aggOpt, _, h⟩ := exceptBind_ok _ _ _ h
      obtain ⟨rvOpt, _, h⟩ := exceptBind_ok _ _ _ h
      obtain ⟨rating, _, h⟩ := exceptBind_ok _ _ _ h
      obtain ⟨aggOpt2, _, h⟩ := exceptBind_ok _ _ _ h
      obtain ⟨rating_n, _, h⟩ := exceptBind_ok _ _ _ h
      obtain ⟨image, _, h⟩ := exceptBind_ok _ _ _ h
      obtain ⟨spD, hsp, h⟩ := exceptBind_ok _ _ _ h
      obtain ⟨lpD, hlp, h⟩ := exceptBind_ok _ _ _ h
      injection h with h
      rw [← h]
      dsimp only
      obtain ⟨lp0, sp0, de0⟩ := trip
      have hnm := lluSalePriceDesc_no_minus _ _ _ _ _ hdesc
      exact ⟨priceConv_nonneg sp0 spD hnm.2 hsp,
             priceConv_nonneg lp0 lpD hnm.1 hlp⟩

theorem lluDetail_price_nonneg (raw : Node) (cfg : Config) (r : LLDetail)
    (h : lululemonDetailExtract raw cfg = .ok r) :
    (∀ d, r.sale_price = some d → 0 ≤ d.mant) ∧
    (∀ d, r.regular_price = some d → 0 ≤ d.mant) := by
  unfold lululemonDetailExtract at h
  split at h
  · rename_i r' hb
    injection h with h
    rw [← h]
    exact lluDetailBody_price_nonneg raw r' hb
  · injection h with h
    rw [← h]
    exact lluEmpty_price_nonneg

theorem bMicroAt_sale_nonneg (node pe : Node) (hmem : pe ∈ node.descEls)
    (hc : ∀ e ∈ node.descEls, ∀ c, e.getAttr "content" = some c → '-' ∉ c.data)
    (p : Int) (hp : (bMicroAt node pe).1 = some p) : 0 ≤ p := by
  unfold bMicroAt at hp
  dsimp only at hp
  split at hp
  · rename_i v hs1
    injection hp with hp
    rw [← hp]
    revert hs1
    split
    · rename_i c hattr
      split
      · split
        · rename_i dd hdd
          intro hs1
          injection hs1 with hs1
          rw [← hs1]
          unfold Dec.trunc
          exact Int.tdiv_nonneg
            (pyFloat_nonneg_of_no_minus c dd (hc pe hmem c hattr) hdd)
            (by positivity)
        · intro hs1
          exact extract_int_price_nonneg _ _ hs1
      · intro hs1
        exact absurd hs1 (by simp)
    · intro hs1
      exact absurd hs1 (by simp)
  · exact extract_int_price_nonneg _ _ hp

theorem bMicroWalk_sale_nonneg :
    ∀ (f : Nat) (chain : List Node),
      (∀ n ∈ chain, ∀ e ∈ n.descEls, ∀ c,
        e.getAttr "content" = some c → '-' ∉ c.data) →
      ∀ sale curr p, bMicroWalk f chain = some (sale, curr) →
        sale = some p → 0 ≤ p := by
  intro f
  induction f with
  | zero => intro chain _ sale curr p h _; simp [bMicroWalk] at h
  | succ g ih =>
    intro chain hc sale curr p h hp
    cases chain with
    | nil => simp [bMicroWalk] at h
    | cons n rest =>
      simp only [bMicroWalk] at h
      split at h
      · rename_i pe hpe
        injection h with h
        apply bMicroAt_sale_nonneg n pe
          (List.mem_of_find?_eq_some hpe)
          (hc n (List.mem_cons_self _ _)) p
        rw [h, hp]
      · exact ih rest (fun m hm => hc m (List.mem_cons_of_mem _ hm))
          sale curr p h hp

theorem bPriceCurrency_sale_nonneg (chain : List Node)
    (hc : ∀ n ∈ chain, ∀ e ∈ n.descEls, ∀ c,
      e.getAttr "content" = some c → '-' ∉ c.data)
    (p : Int) (hp : (bPriceCurrency chain).1 = some p) : 0 ≤ p := by
  unfold bPriceCurrency at hp
  cases hw : bMicroWalk 8 chain with
  | none =>
    rw [hw] at hp
    dsimp only at hp
    cases ht : bTextWalk 5 chain with
    | some t => rw [ht] at hp; exact extract_int_price_nonneg _ _ hp
    | none => rw [ht] at hp; simp at hp
  | some pr =>
    rw [hw] at hp
    rcases pr with ⟨sale, curr⟩
    dsimp only at hp
    by_cases hs : sale.isSome = true
    · rw [if_pos hs] at hp
      exact bMicroWalk_sale_nonneg 8 chain hc sale curr p hw hp
    · rw [if_neg hs] at hp
      cases ht : bTextWalk 5 chain with
      | some t => rw [ht] at hp; exact extract_int_price_nonneg _ _ hp
      | none => rw [ht] at hp; simp at hp

/-- C1 counterexample: on a Balenciaga listing whose price microdata
carries `content="-5.5"`, the fallback emits `sale_price = -5` and
`regular_price = -5` — an emitted price field that is negative, because
the `int(float(content))` path truncates the signed float instead of
going through `extract_int_price`. -/
theorem priceFields_counterexample :
    (balenciagaParseByProductLinks cexDoc cexCfg).map
        (fun r => (r.sale_price, r.regular_price)) =
      [(some (-5), some (-5))] ∧
    ¬ (0 : Int) ≤ -5 := by
  refine ⟨by decide, by decide⟩

/-- A one-ancestor chain whose price microdata content is unsigned. -/
def wChain : List Node :=
  [.el "div" [] [.el "span" [("itemprop", "price"), ("content", "7.5")] []]]

/-- C1 (amended): every price parsed from price text via
`extract_int_price` is a non-negative integer and text without a digit
yields `None`; the Lululemon detail extractor emits its prices as Python
floats (exact decimals here), which are non-negative since the regex
captures are unsigned; and a Balenciaga fallback price is non-negative
whenever no `content` attribute reachable from the walked ancestors
carries a minus sign — with a negative `content` float the emitted price
is its truncation and can be negative, as the counterexample shows. -/
theorem priceFields_amended :
    (∀ s n, extract_int_price s = some n → 0 ≤ n) ∧
    (extract_int_price "no price here!" = none) ∧
    (∀ raw cfg r, lululemonDetailExtract raw cfg = .ok r →
      (∀ d, r.sale_price = some d → 0 ≤ d.mant) ∧
      (∀ d, r.regular_price = some d → 0 ≤ d.mant)) ∧
    (∀ chain, (∀ n ∈ chain, ∀ e ∈ n.descEls, ∀ c,
        e.getAttr "content" = some c → '-' ∉ c.data) →
      ∀ p, (bPriceCurrency chain).1 = some p → 0 ≤ p) := by
  refine ⟨extract_int_price_nonneg, by decide, lluDetail_price_nonneg, ?_⟩
  intro chain hc p hp
  exact bPriceCurrency_sale_nonneg chain hc p hp

/-- Witness for the amended C1: a concrete price text and a concrete
unsigned-content ancestor chain. -/
theorem priceFields_amended_witness :
    (0 : Int) ≤ 1299 ∧ extract_int_price "RM 1,299" = some 1299 ∧
    (bPriceCurrency wChain).1 = some 7 ∧ (0 : Int) ≤ 7 := by
  refine ⟨priceFields_amended.1 "RM 1,299" 1299 (by decide), by decide,
    by decide, ?_⟩
  exact priceFields_amended.2.2.2 wChain (by decide) 7 (by decide)

theorem bMicroWalk_take :
    ∀ (f : Nat) (chain : List Node),
      bMicroWalk f chain = bMicroWalk f (chain.take f) := by
  intro f
  induction f with
  | zero => intro chain; rfl
  | succ g ih =>
    intro chain
    cases chain with
    | nil => rfl
    | cons n rest =>
      simp only [List.take_succ_cons, bMicroWalk]
      split
      · rfl
      · exact ih rest

theorem bTextWalk_take :
    ∀ (f : Nat) (chain : List Node),
      bTextWalk f chain = bTextWalk f (chain.take f) := by
  intro f
  induction f with
  | zero => intro chain; rfl
  | succ g ih =>
    intro chain
    cases chain with
    | nil => rfl
    | cons n rest =>
      simp only [List.take_succ_cons, bTextWalk]
      split
      · rfl
      · exact ih rest

theorem bMicroWalk_eq_find :
    ∀ (f : Nat) (chain : List Node),
      bMicroWalk f chain =
        ((chain.take f).find? (fun n => (findPriceEl n).isSome)).bind
          (fun n => (findPriceEl n).map (fun pe => bMicroAt n pe)) := by
  intro f
  induction f with
  | zero => intro chain; rfl
  | succ g ih =>
    intro chain
    cases chain with
    | nil => rfl
    | cons n rest =>
      simp only [List.take_succ_cons, bMicroWalk]
      cases hpe : findPriceEl n with
      | some pe =>
        rw [List.find?_cons_of_pos _ (by simp [hpe])]
        simp [hpe]
      | none =>
        rw [List.find?_cons_of_neg _ (by simp [hpe])]
        exact ih rest

theorem bTextWalk_eq_find :
    ∀ (f : Nat) (chain : List Node),
      bTextWalk f chain =
        ((chain.take f).find?
          (fun n => bPriceTextMatch (n.getTextWith " ").data)).map
          (fun n => n.getTextWith " ") := by
  intro f
  induction f with
  | zero => intro chain; rfl
  | succ g ih =>
    intro chain
    cases chain with
    | nil => rfl
    | cons n rest =>
      simp only [List.take_succ_cons, bTextWalk]
      by_cases hm : bPriceTextMatch (n.getTextWith " ").data = true
      · rw [if_pos hm, List.find?_cons_of_pos _ (by simpa using hm)]
        rfl
      · rw [if_neg hm, List.find?_cons_of_neg _ (by simpa using hm)]
        exact ih rest

/-- C8: the Balenciaga fallback's price resolution for one anchor —
(i) the microdata walk inspects at most the first 8 ancestors and the
text walk at most the first 5; (ii) the microdata walk resolves at the
first ancestor containing a price-microdata descendant; (iii) a truthy
numeric `content` attribute wins over visible text, the float string
truncated to an integer; (iv) currency comes from a `priceCurrency`
element found in the same ancestor or, failing that, from the text
heuristic on the price element's text; (v) with no microdata within the
bound of 8, the first of at most 5 ancestors whose visible text matches
the `RM`/`€`/`$` number pattern supplies price and currency. -/
theorem balenciagaPriceResolution (chain : List Node) :
    (bMicroWalk 8 chain = bMicroWalk 8 (chain.take 8) ∧
     bTextWalk 5 chain = bTextWalk 5 (chain.take 5)) ∧
    (bMicroWalk 8 chain =
      ((chain.take 8).find? (fun n => (findPriceEl n).isSome)).bind
        (fun n => (findPriceEl n).map (fun pe => bMicroAt n pe))) ∧
    (∀ node pe c d, findPriceEl node = some pe →
      pe.getAttr "content" = some c → pyTruthy c = true →
      pyFloat c = .ok d → (bMicroAt node pe).1 = some d.trunc) ∧
    (∀ node pe, findPriceEl node = some pe →
      (findCurrEl node = none →
        (bMicroAt node pe).2 = extract_currency pe.getTextStrip) ∧
      (∀ ce, findCurrEl node = some ce →
        strToOpt (pyUpper (pyOrS (orEmpty (ce.getAttr "content"))
          ce.getTextStrip)) = none →
        (bMicroAt node pe).2 = extract_currency pe.getTextStrip) ∧
      (∀ ce u, findCurrEl node = some ce →
        strToOpt (pyUpper (pyOrS (orEmpty (ce.getAttr "content"))
          ce.getTextStrip)) = some u →
        (bMicroAt node pe).2 = some u)) ∧
    ((∀ n ∈ chain.take 8, findPriceEl n = none) →
      bPriceCurrency chain =
        (match (chain.take 5).find?
            (fun n => bPriceTextMatch (n.getTextWith " ").data) with
         | some n => (extract_int_price (n.getTextWith " "),
                      extract_currency (n.getTextWith " "))
         | none => (none, none))) := by
  refine ⟨⟨bMicroWalk_take 8 chain, bTextWalk_take 5 chain⟩,
    bMicroWalk_eq_find 8 chain, ?_, ?_, ?_⟩
  · intro node pe c d _ hattr htr hpf
    unfold bMicroAt
    simp [hattr, htr, hpf]
  · intro node pe _
    refine ⟨?_, ?_, ?_⟩
    · intro hce
      unfold bMicroAt
      simp [hce]
    · intro ce hce hs
      unfold bMicroAt
      simp [hce, hs]
    · intro ce u hce hs
      unfold bMicroAt
      simp [hce, hs]
  · intro hnone
    have hfind : (chain.take 8).find? (fun n => (findPriceEl n).isSome) = none :=
      List.find?_eq_none.mpr (fun x hx => by simp [hnone x hx])
    have hmw : bMicroWalk 8 chain = none := by
      rw [bMicroWalk_eq_find, hfind]
      rfl
    unfold bPriceCurrency
    rw [hmw]
    rw [bTextWalk_eq_find]
    cases hf : (chain.take 5).find?
        (fun n => bPriceTextMatch (n.getTextWith " ").data) with
    | some n => rfl
    | none => rfl

/-- A chain with no price microdata whose first ancestor's text matches
the currency-number pattern. -/
def w8Chain : List Node := [.el "div" [] [.txt "€ 1,250"]]

/-- Witness for C8: on `w8Chain` the no-microdata branch resolves the
price from the first matching ancestor text. -/
theorem balenciagaPriceResolution_witness :
    bPriceCurrency w8Chain = (some 1250, some "EUR") := by
  have h5 := (balenciagaPriceResolution w8Chain).2.2.2.2
    (by intro n hn; simp [w8Chain] at hn; subst hn; rfl)
  rw [h5]
  decide
